import Mathlib

/-!
Verification of the capture engine of the `spectral` Chrome extension.

The definitions below are shallow embeddings of the JavaScript sources:
  * `src/extension/background/graphql.js` (the `__typename` injector and the
    GraphQL request interceptor, also `src/unnamed/part_002`),
  * `src/extension/background/network.js` (the network trace builder),
  * `src/extension/background/websocket.js` (the WebSocket tracker),
  * `src/unnamed/part_000` (capture lifecycle, `addContext`),
  * `src/unnamed/part_001` (shared session state),
  * `src/unnamed/part_003` (utilities, `findContextRefs`).

JavaScript numbers are modelled as `ℤ`: every quantity the verified claims
touch (timestamps and timing marks in milliseconds, status codes, opcodes,
counters) is integral, and on this domain the sources' arithmetic is exact —
in particular the `Math.floor` in `toEpochMs` is the identity and the `NaN`
cases are modelled explicitly through `Option` (an `undefined` JavaScript
value is an `Option` `none`).  Platform builtins (the debugger transport, `Date.now`,
`JSON.parse`, `atob`, the `URL` parser) are external collaborators: calls
into them are modelled as explicit parameters or, where a pure result is
needed, by small models marked as such in their doc comments.
-/

set_option linter.unusedVariables false
set_option linter.unnecessarySimpa false
set_option maxRecDepth 4000

/-! ## The GraphQL `__typename` scanner (`injectTypename`, graphql.js lines 13-79)

The JavaScript is a single `while` loop over the query string with two inner
skipping loops (string literals and line comments).  It is embedded as a
character-by-character state machine: the inner loops become the modes
`instring` / `inescape` / `incomment`, the outer loop is mode `normal`.
`prev` tracks the previously consumed input character (the JS reads
`query[i - 1]`, with `' '` at the start), and `stack` is the brace stack of
the source: one `Bool` per open selection set, `true` once a standalone
`__typename` word was seen at that depth.  The translation of the escape
handling was checked against the source: inside a string a backslash consumes
the following character unconditionally (even a quote or a second backslash),
and an unterminated string or comment runs to the end of the input. -/

inductive ScanMode where
  | normal
  | instring
  | inescape
  | incomment
  deriving DecidableEq

structure ScanSt where
  mode : ScanMode
  prev : Char
  stack : List Bool
  deriving DecidableEq

/-- Character class of the JS regex `/[a-zA-Z0-9_]/`. -/
def isWordChar (c : Char) : Bool :=
  (('a' ≤ c) && (c ≤ 'z')) || (('A' ≤ c) && (c ≤ 'Z')) || (('0' ≤ c) && (c ≤ '9')) || (c = '_')

/-- Condition of graphql.js lines 63-71: the current character starts the
standalone word `__typename` (ten characters `c :: rest.take 9`, with a
non-word character, or the boundary, on both sides). -/
def detectTypename (prev c : Char) (rest : List Char) : Bool :=
  (c = '_') && (rest.take 9 = ("_typename").toList)
    && (!isWordChar prev) && (!isWordChar ((rest[9]?).getD ' '))

/-- Mark the top of the brace stack (graphql.js lines 68-70); a no-op on an
empty stack. -/
def markTop : List Bool → List Bool
  | [] => []
  | _ :: t => true :: t

/-- The scanning loop of `injectTypename`.  Each step consumes exactly one
input character; the `(rest.take 9)` lookahead mirrors `query.slice(i, i+10)`
of the source. -/
def scan : List Char → ScanSt → List Char
  | [], _ => []
  | c :: rest, st =>
    match st.mode with
    | .instring =>
      c :: scan rest { mode := if c = '\\' then .inescape else if c = '"' then .normal else .instring,
                       prev := c, stack := st.stack }
    | .inescape =>
      c :: scan rest { mode := .instring, prev := c, stack := st.stack }
    | .incomment =>
      if c = '\n' then
        c :: scan rest { mode := .normal, prev := c, stack := st.stack }
      else
        c :: scan rest { mode := .incomment, prev := c, stack := st.stack }
    | .normal =>
      if c = '"' then
        c :: scan rest { mode := .instring, prev := c, stack := st.stack }
      else if c = '#' then
        c :: scan rest { mode := .incomment, prev := c, stack := st.stack }
      else if c = '{' then
        c :: scan rest { mode := .normal, prev := c, stack := false :: st.stack }
      else if c = '}' then
        (if st.stack.headD true then [] else (" __typename ").toList) ++
          c :: scan rest { mode := .normal, prev := c, stack := st.stack.tail }
      else
        let stk := if detectTypename st.prev c rest then markTop st.stack else st.stack
        c :: scan rest { mode := .normal, prev := c, stack := stk }

/-- Entry point of graphql.js line 13: scan from the initial state (outside
any string or comment, empty stack, `before` defaulting to `' '`). -/
def injectTypename (q : String) : String :=
  String.mk (scan q.toList { mode := .normal, prev := ' ', stack := [] })

/-- Pass-two stacks dominate pass-one stacks pointwise: wherever the first
scan has recorded `__typename` as seen, the second scan has as well. -/
def StackLe (s t : List Bool) : Prop :=
  List.Forall₂ (fun a b => a = true → b = true) s t

/-- Well-formed string-literal body, as consumed by the scanner's string
mode: no unescaped closing quote, a backslash escapes the next character,
and the body does not end in a dangling escape. -/
def strBodyOk : Bool → List Char → Bool
  | esc, [] => !esc
  | true, _ :: r => strBodyOk false r
  | false, c :: r => if c = '"' then false else strBodyOk (decide (c = '\\')) r

/-! ## Session state (src/unnamed/part_001) and shared utilities (part_003)

JavaScript `Map`s are embedded as association lists with `Map`-faithful
operations: `mapGet` finds the entry for a key, `mapSet` overwrites in place
or appends, `mapDel` removes every entry for the key (on the states the
handlers construct, keys are unique, so this coincides with `Map.delete`).
The fields `settings` and `appInfo` of the source state object are omitted:
no embedded handler reads or writes them. -/

inductive LifecycleState where
  | idle
  | attaching
  | capturing
  | exporting
  deriving DecidableEq

def mapGet {α : Type} (m : List (String × α)) (k : String) : Option α :=
  match m with
  | [] => none
  | (k2, v) :: r => if k2 = k then some v else mapGet r k

def mapSet {α : Type} (m : List (String × α)) (k : String) (v : α) : List (String × α) :=
  match m with
  | [] => [(k, v)]
  | (k2, v2) :: r => if k2 = k then (k, v) :: r else (k2, v2) :: mapSet r k v

def mapDel {α : Type} (m : List (String × α)) (k : String) : List (String × α) :=
  match m with
  | [] => []
  | (k2, v2) :: r => if k2 = k then mapDel r k else (k2, v2) :: mapDel r k

/-- Header conversion of part_003 lines 68-76.  Header objects are embedded
as ordered name/value pair lists, so the object-to-array conversion is the
entry map; a missing header object yields the empty list.  (The pass-through
branch for an input that is already an array, and the object-valued entry
variant, are transport shapes that do not occur in the embedded events.) -/
def normalizeHeaders (h : Option (List (String × String))) : List (String × String) :=
  match h with
  | none => []
  | some hs => hs.map (fun nv => (nv.1, nv.2))

/-- Zero padding of part_003 line 10-12: `String(num).padStart(width, '0')`. -/
def padLeft (str : String) (width : ℕ) (c : Char) : String :=
  String.mk (List.replicate (width - str.length) c) ++ str

/-- ID generation of part_003: `padId('t', 1)` is `t_0001`. -/
def padId (kind : String) (num : ℕ) : String :=
  kind ++ "_" ++ padLeft (toString num) 4 '0'

/-- Monotonic-to-epoch conversion of part_003 lines 26-31.  The `Date.now()`
fallback used when no offset has been computed is passed in as `nowMs`; the
source's `Math.floor` is the identity on the integral domain modelled here. -/
def toEpochMs (timeOffset : Option ℤ) (nowMs : ℤ) (chromeTimestamp : ℤ) : ℤ :=
  match timeOffset with
  | some off => chromeTimestamp * 1000 + off
  | none => nowMs

/-- List-level `String.startsWith` (the byte-level builtin does not reduce
in proofs; this is the same predicate on the character lists). -/
def strStartsWith (s pre : String) : Bool :=
  pre.toList.isPrefixOf s.toList

/-- List-level `toLowerCase` (ASCII, as the JS engine lowercases the ASCII
extension and MIME strings involved). -/
def lowerStr (s : String) : String :=
  String.mk (s.toList.map Char.toLower)

/-- UTF-8 encoding of one code point. -/
def utf8Bytes (c : Char) : List ℕ :=
  let n := c.toNat
  if n < 128 then [n]
  else if n < 2048 then [192 + n / 64, 128 + n % 64]
  else if n < 65536 then [224 + n / 4096, 128 + (n / 64) % 64, 128 + n % 64]
  else [240 + n / 262144, 128 + (n / 4096) % 64, 128 + (n / 64) % 64, 128 + n % 64]

/-- Models the `TextEncoder().encode` builtin: the UTF-8 bytes of a string. -/
def stringToBytes (str : String) : List ℕ :=
  (str.toList.map utf8Bytes).flatten

/-- Base64 value of one alphabet character (model of the `atob` builtin's
alphabet; characters outside the alphabet map to 0). -/
def b64Val (c : Char) : ℕ :=
  if 'A' ≤ c ∧ c ≤ 'Z' then c.toNat - 65
  else if 'a' ≤ c ∧ c ≤ 'z' then c.toNat - 97 + 26
  else if '0' ≤ c ∧ c ≤ '9' then c.toNat - 48 + 52
  else if c = '+' then 62
  else if c = '/' then 63
  else 0

/-- Models `atob` plus the byte loop of part_003 lines 47-54 on well-formed
base64 input: each 4-character group decodes to up to three bytes, with `=`
padding trimming the group. -/
def b64Decode : List Char → List ℕ
  | c1 :: c2 :: c3 :: c4 :: rest =>
    let n := b64Val c1 * 262144 + b64Val c2 * 4096 + b64Val c3 * 64 + b64Val c4
    (if c3 = '=' then [n / 65536 % 256]
     else if c4 = '=' then [n / 65536 % 256, n / 256 % 256]
     else [n / 65536 % 256, n / 256 % 256, n % 256]) ++ b64Decode rest
  | _ => []

def base64ToBytes (str : String) : List ℕ :=
  b64Decode str.toList

/-- JavaScript `x || d` on an optional string: `undefined` and `''` fall back. -/
def jsOrStr (x : Option String) (d : String) : String :=
  match x with
  | some v => if v = "" then d else v
  | none => d

/-- JavaScript `x || null` on an optional string. -/
def jsStrOrNull (x : Option String) : Option String :=
  match x with
  | some v => if v = "" then none else some v
  | none => none

/-- JavaScript `x || null` on an optional number: `undefined` and `0` give null. -/
def jsOrNullNum (x : Option ℤ) : Option ℤ :=
  match x with
  | some v => if v = 0 then none else some v
  | none => none

structure UIElement where
  selector : String
  tag : String
  text : String
  attributes : List (String × String)
  xpath : String
  deriving DecidableEq

structure UIPage where
  url : String
  title : String
  content : Option String
  deriving DecidableEq

structure UIViewport where
  width : ℤ
  height : ℤ
  scroll_x : ℤ
  scroll_y : ℤ
  deriving DecidableEq

structure UIContext where
  id : String
  timestamp : ℤ
  action : String
  element : UIElement
  page : UIPage
  viewport : UIViewport
  deriving DecidableEq

structure TimelineEntry where
  timestamp : ℤ
  type : String
  ref : String
  deriving DecidableEq

/-- Correlator of part_003 lines 81-89: collect, in stored order, the ids of
the contexts whose timestamp lies in the two-sided window. -/
def findContextRefs (contexts : List UIContext) (timestamp : ℤ)
    (windowMs : ℤ := 2000) : List String :=
  contexts.foldl
    (fun refs ctx =>
      if ctx.timestamp ≥ timestamp - windowMs ∧ ctx.timestamp ≤ timestamp
      then refs ++ [ctx.id] else refs)
    []

structure Initiator where
  type : String
  url : Option String
  line : Option ℤ
  deriving DecidableEq

structure ReqData where
  method : String
  url : String
  headers : List (String × String)
  postData : Option String
  deriving DecidableEq

structure RespData where
  status : ℤ
  statusText : String
  headers : List (String × String)
  mimeType : Option String
  deriving DecidableEq

structure TimingMarks where
  dnsStart : Option ℤ
  dnsEnd : Option ℤ
  connectStart : Option ℤ
  connectEnd : Option ℤ
  sslStart : Option ℤ
  sslEnd : Option ℤ
  sendStart : Option ℤ
  sendEnd : Option ℤ
  receiveHeadersEnd : Option ℤ
  deriving DecidableEq

structure Timing where
  dns_ms : ℤ
  connect_ms : ℤ
  tls_ms : ℤ
  send_ms : ℤ
  wait_ms : ℤ
  receive_ms : ℤ
  total_ms : ℤ
  deriving DecidableEq

structure PendingRequest where
  requestId : String
  timestamp : ℤ
  request : ReqData
  initiator : Initiator
  response : Option RespData
  timing : Option Timing
  responseTimestamp : Option ℤ
  deriving DecidableEq

/-- Buffered wire-level headers (already normalized, as in the source, which
buffers `normalizeHeaders(headers)`). -/
structure ExtraInfo where
  requestHeaders : Option (List (String × String))
  responseHeaders : Option (List (String × String))
  deriving DecidableEq

structure TraceReq where
  method : String
  url : String
  headers : List (String × String)
  body_file : Option String
  body_size : ℕ
  body_encoding : Option String
  deriving DecidableEq

structure TraceResp where
  status : ℤ
  status_text : String
  headers : List (String × String)
  body_file : Option String
  body_size : ℕ
  body_encoding : Option String
  deriving DecidableEq

/-- A finalized trace; `reqBodyBytes`/`respBodyBytes` embed the source's
`_requestBodyBytes`/`_responseBodyBytes` fields kept for export. -/
structure Trace where
  id : String
  timestamp : ℤ
  type : String
  request : TraceReq
  response : TraceResp
  timing : Timing
  initiator : Initiator
  context_refs : List String
  reqBodyBytes : Option (List ℕ)
  respBodyBytes : Option (List ℕ)
  deriving DecidableEq

structure WsMessage where
  id : String
  connection_ref : String
  timestamp : ℤ
  direction : String
  opcode : String
  payload_file : Option String
  payload_size : ℕ
  context_refs : List String
  payloadBytes : Option (List ℕ)
  deriving DecidableEq

structure WsConnection where
  id : String
  timestamp : ℤ
  url : String
  handshake_trace_ref : Option String
  protocols : List String
  message_count : ℕ
  context_refs : List String
  requestId : String
  messages : List WsMessage
  deriving DecidableEq

/-- The shared mutable session state of part_001.  WebSocket message
counters are `Option ℕ` valued: `none` embeds the JavaScript `NaN` that
`get(wsId) + 1` would produce for a missing counter. -/
structure CaptureState where
  state : LifecycleState
  captureTabId : Option ℤ
  captureStartTime : Option ℤ
  traces : List Trace
  contexts : List UIContext
  wsConnections : List (String × WsConnection)
  wsMessages : List WsMessage
  timeline : List TimelineEntry
  pendingRequests : List (String × PendingRequest)
  pendingExtraInfo : List (String × ExtraInfo)
  traceCounter : ℕ
  contextCounter : ℕ
  wsConnectionCounter : ℕ
  wsMessageCounters : List (String × Option ℕ)
  timeOffset : Option ℤ
  deriving DecidableEq

/-- Initial (and reset) state of part_001. -/
def initialState : CaptureState :=
  { state := .idle
    captureTabId := none
    captureStartTime := none
    traces := []
    contexts := []
    wsConnections := []
    wsMessages := []
    timeline := []
    pendingRequests := []
    pendingExtraInfo := []
    traceCounter := 0
    contextCounter := 0
    wsConnectionCounter := 0
    wsMessageCounters := []
    timeOffset := none }

/-! ## Network trace builder (src/extension/background/network.js) -/

def STATIC_EXTENSIONS : List String :=
  [".js", ".css", ".woff", ".woff2", ".ttf", ".png", ".jpg", ".jpeg",
   ".gif", ".svg", ".ico", ".map"]

def SKIP_CONTENT_TYPES : List String :=
  ["font/", "image/", "text/css", "application/javascript", "text/javascript"]

/-- Scheme separator search: models the `new URL(url)` builtin accepting
exactly the strings that contain `://` (a simplification of the URL grammar
adequate for the http(s) URLs the capture sees; anything else throws, which
`isStaticAsset` catches and maps to `false`). -/
def afterSchemeSep : List Char → Option (List Char)
  | ':' :: '/' :: '/' :: r => some r
  | _ :: r => afterSchemeSep r
  | [] => none

/-- Models the `pathname` of the URL builtin: everything from the first `/`
after the host up to the query or fragment; `/` when the URL has no path. -/
def pathOfRest (r : List Char) : List Char :=
  let afterHost := r.dropWhile (fun c => ¬ (c = '/' ∨ c = '?' ∨ c = '#'))
  match afterHost with
  | '/' :: _ => afterHost.takeWhile (fun c => ¬ (c = '?' ∨ c = '#'))
  | _ => ['/']

def urlPathname (url : String) : Option String :=
  (afterSchemeSep url.toList).map (fun r => String.mk (pathOfRest r))

/-- Tail of the character list from its last `.`, mirroring
`pathname.slice(pathname.lastIndexOf('.'))` when a dot exists. -/
def tailFromDot : List Char → Option (List Char)
  | [] => none
  | c :: r =>
    match tailFromDot r with
    | some t => some t
    | none => if c = '.' then some (c :: r) else none

/-- Extension extraction of `isStaticAsset`: from the last dot, or — as in
the source, where `lastIndexOf` returns `-1` and `slice(-1)` keeps the last
character — the final character when the pathname has no dot. -/
def extOfPathname (pathname : String) : String :=
  match tailFromDot pathname.toList with
  | some t => String.mk t
  | none => String.mk (pathname.toList.drop (pathname.toList.length - 1))

/-- Static-asset filter of network.js lines 33-41. -/
def isStaticAsset (url : String) : Bool :=
  match urlPathname url with
  | none => false
  | some pathname => STATIC_EXTENSIONS.contains (lowerStr (extOfPathname pathname))

/-- Content-type filter of network.js lines 46-50. -/
def isSkippableContentType (mimeType : Option String) : Bool :=
  match mimeType with
  | none => false
  | some mt =>
    if mt = "" then false
    else SKIP_CONTENT_TYPES.any (fun pre => strStartsWith (lowerStr mt) pre)

/-- JavaScript `(end - start) || 0` on two timing marks: a missing mark makes
the difference `NaN`, which `|| 0` coalesces to `0` (as it does a zero
difference); any other difference, negative included, passes through. -/
def markDiff (endMark startMark : Option ℤ) : ℤ :=
  match endMark, startMark with
  | some x, some y => x - y
  | _, _ => 0

def emptyMarks : TimingMarks :=
  ⟨none, none, none, none, none, none, none, none, none⟩

/-- Timing computation of handleResponseReceived (network.js lines 104-114);
`response.timing || {}` supplies an empty mark record when timing is absent. -/
def computeTiming (marks : Option TimingMarks) : Timing :=
  let t := marks.getD emptyMarks
  { dns_ms := markDiff t.dnsEnd t.dnsStart
    connect_ms := markDiff t.connectEnd t.connectStart
    tls_ms := markDiff t.sslEnd t.sslStart
    send_ms := markDiff t.sendEnd t.sendStart
    wait_ms := markDiff t.receiveHeadersEnd t.sendEnd
    receive_ms := 0
    total_ms := 0 }

def zeroTiming : Timing := ⟨0, 0, 0, 0, 0, 0, 0⟩

structure RawRequest where
  method : String
  url : String
  headers : Option (List (String × String))
  postData : Option String
  deriving DecidableEq

structure InitiatorParams where
  type : Option String
  url : Option String
  lineNumber : Option ℤ
  deriving DecidableEq

structure RwsParams where
  requestId : String
  request : RawRequest
  timestamp : ℤ
  wallTime : Option ℤ
  initiator : Option InitiatorParams
  type : Option String
  deriving DecidableEq

/-- Network.requestWillBeSent handler (network.js lines 55-93). -/
def handleRequestWillBeSent (p : RwsParams) (nowMs : ℤ) (s : CaptureState) : CaptureState :=
  if p.type = some ("WebSocket") then s
  else if strStartsWith p.request.url ("chrome-extension://") then s
  else
    let newOffset : Option ℤ :=
      match s.timeOffset, p.wallTime with
      | none, some w => if w = 0 then none else some (w * 1000 - p.timestamp * 1000)
      | off, _ => off
    let pend : PendingRequest :=
      { requestId := p.requestId
        timestamp := toEpochMs newOffset nowMs p.timestamp
        request :=
          { method := p.request.method
            url := p.request.url
            headers := normalizeHeaders p.request.headers
            postData := jsStrOrNull p.request.postData }
        initiator :=
          { type := jsOrStr (p.initiator.bind (fun i => i.type)) ("other")
            url := jsStrOrNull (p.initiator.bind (fun i => i.url))
            line := jsOrNullNum (p.initiator.bind (fun i => i.lineNumber)) }
        response := none
        timing := none
        responseTimestamp := none }
    let s1 : CaptureState :=
      { s with timeOffset := newOffset
               pendingRequests := mapSet s.pendingRequests p.requestId pend }
    match mapGet s1.pendingExtraInfo p.requestId with
    | some extra =>
      match extra.requestHeaders with
      | some hdrs =>
        let pend2 := { pend with request := { pend.request with headers := hdrs } }
        let s2 := { s1 with pendingRequests := mapSet s1.pendingRequests p.requestId pend2 }
        if extra.responseHeaders = none then
          { s2 with pendingExtraInfo := mapDel s2.pendingExtraInfo p.requestId }
        else
          let extra2 : ExtraInfo := ⟨none, extra.responseHeaders⟩
          { s2 with pendingExtraInfo := mapSet s2.pendingExtraInfo p.requestId extra2 }
      | none => s1
    | none => s1

structure RawResponse where
  status : ℤ
  statusText : Option String
  headers : Option (List (String × String))
  mimeType : Option String
  timing : Option TimingMarks
  deriving DecidableEq

structure RespParams where
  requestId : String
  response : RawResponse
  timestamp : ℤ
  deriving DecidableEq

/-- Network.responseReceived handler (network.js lines 98-132). -/
def handleResponseReceived (p : RespParams) (nowMs : ℤ) (s : CaptureState) : CaptureState :=
  match mapGet s.pendingRequests p.requestId with
  | none => s
  | some pend =>
    let timingInfo := computeTiming p.response.timing
    let pend1 : PendingRequest :=
      { pend with
          response := some
            { status := p.response.status
              statusText := jsOrStr p.response.statusText ""
              headers := normalizeHeaders p.response.headers
              mimeType := p.response.mimeType }
          timing := some timingInfo
          responseTimestamp := some (toEpochMs s.timeOffset nowMs p.timestamp) }
    let s1 := { s with pendingRequests := mapSet s.pendingRequests p.requestId pend1 }
    match mapGet s1.pendingExtraInfo p.requestId with
    | some extra =>
      match extra.responseHeaders with
      | some hdrs =>
        let pend2 := { pend1 with
            response := pend1.response.map (fun r => { r with headers := hdrs }) }
        let s2 := { s1 with pendingRequests := mapSet s1.pendingRequests p.requestId pend2 }
        if extra.requestHeaders = none then
          { s2 with pendingExtraInfo := mapDel s2.pendingExtraInfo p.requestId }
        else
          let extra2 : ExtraInfo := ⟨extra.requestHeaders, none⟩
          { s2 with pendingExtraInfo := mapSet s2.pendingExtraInfo p.requestId extra2 }
      | none => s1
    | none => s1

structure ExtraParams where
  requestId : String
  headers : Option (List (String × String))
  deriving DecidableEq

/-- Network.requestWillBeSentExtraInfo handler (network.js lines 264-277). -/
def handleRequestWillBeSentExtraInfo (p : ExtraParams) (s : CaptureState) : CaptureState :=
  match mapGet s.pendingRequests p.requestId with
  | some pend =>
    let pend1 := { pend with
        request := { pend.request with headers := normalizeHeaders p.headers } }
    { s with pendingRequests := mapSet s.pendingRequests p.requestId pend1 }
  | none =>
    let extra := (mapGet s.pendingExtraInfo p.requestId).getD ⟨none, none⟩
    let extra2 : ExtraInfo := { extra with requestHeaders := some (normalizeHeaders p.headers) }
    { s with pendingExtraInfo := mapSet s.pendingExtraInfo p.requestId extra2 }

/-- Network.responseReceivedExtraInfo handler (network.js lines 283-296). -/
def handleResponseReceivedExtraInfo (p : ExtraParams) (s : CaptureState) : CaptureState :=
  match mapGet s.pendingRequests p.requestId with
  | some pend =>
    match pend.response with
    | some resp =>
      let pend1 := { pend with
          response := some { resp with headers := normalizeHeaders p.headers } }
      { s with pendingRequests := mapSet s.pendingRequests p.requestId pend1 }
    | none =>
      let extra := (mapGet s.pendingExtraInfo p.requestId).getD ⟨none, none⟩
      let extra2 : ExtraInfo := { extra with responseHeaders := some (normalizeHeaders p.headers) }
      { s with pendingExtraInfo := mapSet s.pendingExtraInfo p.requestId extra2 }
  | none =>
    let extra := (mapGet s.pendingExtraInfo p.requestId).getD ⟨none, none⟩
    let extra2 : ExtraInfo := { extra with responseHeaders := some (normalizeHeaders p.headers) }
    { s with pendingExtraInfo := mapSet s.pendingExtraInfo p.requestId extra2 }

structure FinParams where
  requestId : String
  timestamp : ℤ
  deriving DecidableEq

def bytesLen (b : Option (List ℕ)) : ℕ :=
  (b.map List.length).getD 0

/-- Network.loadingFinished handler (network.js lines 137-249).  The
`Network.getResponseBody` debugger call is external: its outcome is the
`fetchResult` parameter — `none` when the call threw (body left null),
`some (body, base64Encoded)` on success.  `nowMs` stands for `Date.now()`
inside `toEpochMs` when no time offset is fixed. -/
def handleLoadingFinished (p : FinParams) (fetchResult : Option (String × Bool)) (nowMs : ℤ)
    (s : CaptureState) : CaptureState :=
  match mapGet s.pendingRequests p.requestId with
  | none => { s with pendingRequests := mapDel s.pendingRequests p.requestId }
  | some pend =>
    match pend.response with
    | none => { s with pendingRequests := mapDel s.pendingRequests p.requestId }
    | some resp =>
      if isStaticAsset pend.request.url then
        { s with pendingRequests := mapDel s.pendingRequests p.requestId }
      else if isSkippableContentType resp.mimeType then
        { s with pendingRequests := mapDel s.pendingRequests p.requestId }
      else
        let responseBody : Option String := fetchResult.map (fun r => r.1)
        let responseBase64 : Bool := (fetchResult.map (fun r => r.2)).getD false
        let timing1 : Option Timing :=
          match pend.timing, pend.responseTimestamp with
          | some t, some rts =>
            let recv := max 0 (toEpochMs s.timeOffset nowMs p.timestamp - rts)
            some { t with
                receive_ms := recv
                total_ms := t.dns_ms + t.connect_ms + t.tls_ms + t.send_ms + t.wait_ms + recv }
          | t, _ => t
        let counter := s.traceCounter + 1
        let traceId := padId ("t") counter
        let requestBodyBytes : Option (List ℕ) :=
          match pend.request.postData with
          | some d => if d = "" then none else some (stringToBytes d)
          | none => none
        let responseBodyBytes : Option (List ℕ) :=
          match responseBody with
          | some b =>
            if b = "" then none
            else some (if responseBase64 then base64ToBytes b else stringToBytes b)
          | none => none
        let trace : Trace :=
          { id := traceId
            timestamp := pend.timestamp
            type := "http"
            request :=
              { method := pend.request.method
                url := pend.request.url
                headers := pend.request.headers
                body_file :=
                  if bytesLen requestBodyBytes ≠ 0 then some (traceId ++ "_request.bin") else none
                body_size := bytesLen requestBodyBytes
                body_encoding := none }
            response :=
              { status := resp.status
                status_text := resp.statusText
                headers := resp.headers
                body_file :=
                  if bytesLen responseBodyBytes ≠ 0 then some (traceId ++ "_response.bin") else none
                body_size := bytesLen responseBodyBytes
                body_encoding := none }
            timing := timing1.getD zeroTiming
            initiator := pend.initiator
            context_refs := findContextRefs s.contexts pend.timestamp
            reqBodyBytes := requestBodyBytes
            respBodyBytes := responseBodyBytes }
        { s with
            traceCounter := counter
            traces := s.traces ++ [trace]
            timeline := s.timeline ++ [⟨pend.timestamp, "trace", traceId⟩]
            pendingRequests := mapDel s.pendingRequests p.requestId
            pendingExtraInfo := mapDel s.pendingExtraInfo p.requestId }

structure FailParams where
  requestId : String
  deriving DecidableEq

/-- Network.loadingFailed handler (network.js lines 254-258). -/
def handleLoadingFailed (p : FailParams) (s : CaptureState) : CaptureState :=
  { s with pendingRequests := mapDel s.pendingRequests p.requestId
           pendingExtraInfo := mapDel s.pendingExtraInfo p.requestId }

/-! ## WebSocket tracker (src/extension/background/websocket.js) -/

structure WsCreatedParams where
  requestId : String
  url : String
  deriving DecidableEq

/-- Network.webSocketCreated handler (websocket.js lines 19-45); `nowMs`
stands for the two `now()` calls. -/
def handleWebSocketCreated (p : WsCreatedParams) (nowMs : ℤ) (s : CaptureState) : CaptureState :=
  let counter := s.wsConnectionCounter + 1
  let wsId := padId ("ws") counter
  let connection : WsConnection :=
    { id := wsId
      timestamp := nowMs
      url := p.url
      handshake_trace_ref := none
      protocols := []
      message_count := 0
      context_refs := findContextRefs s.contexts nowMs
      requestId := p.requestId
      messages := [] }
  { s with
      wsConnectionCounter := counter
      wsConnections := mapSet s.wsConnections p.requestId connection
      wsMessageCounters := mapSet s.wsMessageCounters wsId (some 0)
      timeline := s.timeline ++ [⟨nowMs, "ws_open", wsId⟩] }

structure WsFrameParams where
  requestId : String
  timestamp : ℤ
  opcode : ℤ
  payloadData : Option String
  deriving DecidableEq

/-- String rendering of a WebSocket message counter; a missing counter is the
JavaScript `NaN`, rendered `NaN`. -/
def counterRepr (c : Option ℕ) : String :=
  match c with
  | some n => toString n
  | none => "NaN"

/-- Incremented per-connection counter: `get(wsId) + 1`, where a missing
counter gives the JavaScript `NaN` (embedded as `none`). -/
def wsCounterBump (c : Option (Option ℕ)) : Option ℕ :=
  match c with
  | some (some n) => some (n + 1)
  | _ => none

/-- The message record the frame handlers build (websocket.js lines
79-104 / 130-154). -/
def mkWsMessage (direction : String) (p : WsFrameParams) (nowMs : ℤ)
    (s : CaptureState) (wsId : String) (counter : Option ℕ) : WsMessage :=
  let msgId := wsId ++ "_m" ++ padLeft (counterRepr counter) 3 '0'
  let ts := toEpochMs s.timeOffset nowMs p.timestamp
  let opcode := if p.opcode = 1 then "text" else if p.opcode = 2 then "binary" else "text"
  let payloadBytes : Option (List ℕ) :=
    match p.payloadData with
    | some d =>
      if d = "" then none
      else some (if opcode = "binary" then base64ToBytes d else stringToBytes d)
    | none => none
  { id := msgId
    connection_ref := wsId
    timestamp := ts
    direction := direction
    opcode := opcode
    payload_file := if bytesLen payloadBytes ≠ 0 then some (msgId ++ ".bin") else none
    payload_size := bytesLen payloadBytes
    context_refs := findContextRefs s.contexts ts
    payloadBytes := payloadBytes }

/-- Connection update of the frame handlers: append the message and bump
the count (websocket.js lines 106-107 / 156-157). -/
def bumpConn (connection : WsConnection) (message : WsMessage) : WsConnection :=
  { connection with
      messages := connection.messages ++ [message]
      message_count := connection.message_count + 1 }

/-- Shared body of the frame handlers (websocket.js lines 69-115 and
120-165, which are verbatim duplicates except for the recorded direction). -/
def addWsFrame (direction : String) (p : WsFrameParams) (nowMs : ℤ)
    (s : CaptureState) : CaptureState :=
  match mapGet s.wsConnections p.requestId with
  | none => s
  | some connection =>
    let wsId := connection.id
    let counter : Option ℕ := wsCounterBump (mapGet s.wsMessageCounters wsId)
    let message : WsMessage := mkWsMessage direction p nowMs s wsId counter
    let connection2 := bumpConn connection message
    { s with
        wsConnections := mapSet s.wsConnections p.requestId connection2
        wsMessageCounters := mapSet s.wsMessageCounters wsId counter
        wsMessages := s.wsMessages ++ [message]
        timeline := s.timeline ++ [⟨message.timestamp, "ws_message", message.id⟩] }

/-- Network.webSocketFrameSent handler. -/
def handleWebSocketFrameSent (p : WsFrameParams) (nowMs : ℤ) (s : CaptureState) : CaptureState :=
  addWsFrame ("send") p nowMs s

/-- Network.webSocketFrameReceived handler. -/
def handleWebSocketFrameReceived (p : WsFrameParams) (nowMs : ℤ) (s : CaptureState) : CaptureState :=
  addWsFrame ("receive") p nowMs s

/-! ## Capture lifecycle: addContext (src/unnamed/part_000 lines 38-75) -/

structure ContextData where
  timestamp : Option ℤ
  action : String
  element : Option UIElement
  page : Option UIPage
  viewport : Option UIViewport
  deriving DecidableEq

/-- UI-context message handler.  A message in any lifecycle state other than
CAPTURING returns the state unchanged (part_000 line 39).  `nowMs` stands
for the `now()` fallback timestamp. -/
def addContext (cd : ContextData) (nowMs : ℤ) (s : CaptureState) : CaptureState :=
  if ¬ s.state = .capturing then s
  else
    let counter := s.contextCounter + 1
    let contextId := padId ("c") counter
    let timestamp :=
      match cd.timestamp with
      | some t => if t = 0 then nowMs else t
      | none => nowMs
    let context : UIContext :=
      { id := contextId
        timestamp := timestamp
        action := cd.action
        element := cd.element.getD ⟨"", "", "", [], ""⟩
        page :=
          { url := jsOrStr (cd.page.map (fun pg => pg.url)) ""
            title := jsOrStr (cd.page.map (fun pg => pg.title)) ""
            content := (cd.page.map (fun pg => pg.content)).getD none }
        viewport := cd.viewport.getD ⟨0, 0, 0, 0⟩ }
    { s with
        contextCounter := counter
        contexts := s.contexts ++ [context]
        timeline := s.timeline ++ [⟨timestamp, "context", contextId⟩] }

/-! ## GraphQL interceptor (src/unnamed/part_002 lines 86-203)

`JSON.parse` is a platform builtin; the interceptor's decision logic is
embedded from the parsed value on: `JVal` is the JSON value model and
`fetchDecision` is the choice the handler makes for a POST body that parsed
(part_002 lines 146-194).  The surrounding transport — continue vs fulfill
via the debugger, base64 re-encoding, and the fail-open catch — stays
external. -/

inductive JVal where
  | null
  | bool (b : Bool)
  | num (q : ℤ)
  | str (s : String)
  | arr (items : List JVal)
  | obj (fields : List (String × JVal))

/-- JavaScript truthiness of a JSON value. -/
def jsTruthy : JVal → Bool
  | .null => false
  | .bool b => b
  | .num q => decide (¬ q = 0)
  | .str s => decide (¬ s = "")
  | .arr _ => true
  | .obj _ => true

/-- Property access `v.k`: `none` embeds `undefined`. -/
def jsGet (v : JVal) (k : String) : Option JVal :=
  match v with
  | .obj fields => mapGet fields k
  | _ => none

def jsGetOpt (v : Option JVal) (k : String) : Option JVal :=
  match v with
  | some w => jsGet w k
  | none => none

def jsTruthyOpt (v : Option JVal) : Bool :=
  match v with
  | some w => jsTruthy w
  | none => false

/-- Is `v.query` a string (`typeof item.query === 'string'`)? -/
def hasStringQuery (v : JVal) : Bool :=
  match jsGet v ("query") with
  | some (.str _) => true
  | _ => false

/-- Persisted-query check of part_002 lines 86-91: a truthy item whose
`query` is not a string and whose `extensions.persistedQuery` is truthy. -/
def isPersistedQuery (item : JVal) : Bool :=
  jsTruthy item && !(hasStringQuery item)
    && jsTruthyOpt (jsGet item ("extensions"))
    && jsTruthyOpt (jsGetOpt (jsGet item ("extensions")) ("persistedQuery"))

/-- The PersistedQueryNotFound response body (part_002 lines 94-101). -/
def persistedQueryNotFoundError : JVal :=
  .obj [("errors", .arr [.obj
    [("message", .str "PersistedQueryNotFound"),
     ("extensions", .obj [("code", .str "PERSISTED_QUERY_NOT_FOUND")])]])]

/-- Outcome of the interceptor for a parsed POST body: pass the request
through unchanged, forward it with a rewritten body, or fulfill it directly
with a synthesized response body. -/
inductive FetchAction where
  | forwardUnmodified
  | forwardRewritten (newBody : JVal)
  | fulfill (responseBody : JVal)

/-- Update `item.query` on an object item (the in-place mutation
`item.query = injected`). -/
def setQuery (item : JVal) (q : String) : JVal :=
  match item with
  | .obj fields => .obj (mapSet fields ("query") (.str q))
  | v => v

/-- Per-item injection step of part_002 lines 169-176: rewrite `query` if
the item has one and injection changes it; report whether it changed. -/
def injectItem (item : JVal) : JVal × Bool :=
  match jsGet item ("query") with
  | some (.str q) =>
    let injected := injectTypename q
    if ¬ injected = q then (setQuery item injected, true) else (item, false)
  | _ => (item, false)

/-- Decision of handleFetchRequestPaused for a JSON-decodable POST body
(part_002 lines 146-194): persisted-query rejection first — one error
object per item for an array body, a single error object for a single
item — then `__typename` injection, forwarding the body rewritten only if
some item changed. -/
def fetchDecision (body : JVal) : FetchAction :=
  match body with
  | .arr items =>
    if items.any isPersistedQuery then
      .fulfill (.arr (items.map (fun _ => persistedQueryNotFoundError)))
    else
      let outs := items.map injectItem
      if outs.any (fun o => o.2) then .forwardRewritten (.arr (outs.map (fun o => o.1)))
      else .forwardUnmodified
  | item =>
    if isPersistedQuery item then .fulfill persistedQueryNotFoundError
    else
      match injectItem item with
      | (item2, true) => .forwardRewritten item2
      | (_, false) => .forwardUnmodified

/-! ## Concrete sample values used by witnesses and counterexamples -/

def sampleContext : UIContext :=
  ⟨"c_0001", 1000, "click", ⟨"", "", "", [], ""⟩, ⟨"", "", none⟩, ⟨0, 0, 0, 0⟩⟩

def samplePersisted : JVal :=
  .obj [("extensions", .obj [("persistedQuery", .obj [("version", .num 1)])])]

def sampleQueryItem : JVal :=
  .obj [("query", .str "\x7b a \x7d")]

def c3Marks : TimingMarks :=
  { emptyMarks with dnsStart := some 3, dnsEnd := some 1 }

def rwsSample : RwsParams :=
  ⟨"r1", ⟨"GET", "https://api.example.com/data", none, none⟩, 0, none, none, none⟩

def respSample : RespParams :=
  ⟨"r1", ⟨200, none, none, some ("application/json"), some c3Marks⟩, 0⟩

/-- The pending record `handleRequestWillBeSent rwsSample 0 initialState`
stores for `r1`. -/
def pendSample : PendingRequest :=
  ⟨"r1", 0, ⟨"GET", "https://api.example.com/data", [], none⟩, ⟨"other", none, none⟩,
    none, none, none⟩

def c2Resp : RespParams :=
  ⟨"r1", ⟨200, none, none, some ("text/css"), none⟩, 0⟩

/-- Connection-scoped message id: `wsId_mNNN` for sequence number `n`. -/
def msgIdFmt (wsId : String) (n : ℕ) : String :=
  wsId ++ "_m" ++ padLeft (toString n) 3 '0'

/-- WebSocket tracker invariant: connection keys and connection ids are
unique, and every stored connection satisfies
`message_count = messages.length`, its per-id counter equals its message
count, and its messages carry exactly the scoped ids with strictly
increasing sequence numbers `1, 2, …, message_count` in storage order. -/
abbrev WsInv (s : CaptureState) : Prop :=
  ((s.wsConnections.map (fun e => e.1)).Nodup)
  ∧ ((s.wsConnections.map (fun e => e.2.id)).Nodup)
  ∧ ∀ e ∈ s.wsConnections,
      e.2.message_count = e.2.messages.length
      ∧ mapGet s.wsMessageCounters e.2.id = some (some e.2.message_count)
      ∧ e.2.messages.map (fun msg => msg.id)
          = (List.range e.2.message_count).map (fun k => msgIdFmt e.2.id (k + 1))

/-! ## Unfolding equations for `scan` -/

lemma scan_nil (st : ScanSt) : scan [] st = [] := rfl

lemma scan_instring (c : Char) (rest : List Char) (p : Char) (s : List Bool) :
    scan (c :: rest) ⟨.instring, p, s⟩
      = c :: scan rest ⟨if c = '\\' then .inescape else if c = '"' then .normal else .instring, c, s⟩ :=
  rfl

lemma scan_inescape (c : Char) (rest : List Char) (p : Char) (s : List Bool) :
    scan (c :: rest) ⟨.inescape, p, s⟩ = c :: scan rest ⟨.instring, c, s⟩ := rfl

lemma scan_incomment (c : Char) (rest : List Char) (p : Char) (s : List Bool) (h : ¬ c = '\n') :
    scan (c :: rest) ⟨.incomment, p, s⟩ = c :: scan rest ⟨.incomment, c, s⟩ := by
  simp only [scan]
  rw [if_neg h]

lemma scan_incomment_nl (rest : List Char) (p : Char) (s : List Bool) :
    scan ('\n' :: rest) ⟨.incomment, p, s⟩ = '\n' :: scan rest ⟨.normal, '\n', s⟩ := rfl

lemma scan_quote (rest : List Char) (p : Char) (s : List Bool) :
    scan ('"' :: rest) ⟨.normal, p, s⟩ = '"' :: scan rest ⟨.instring, '"', s⟩ := rfl

lemma scan_hash (rest : List Char) (p : Char) (s : List Bool) :
    scan ('#' :: rest) ⟨.normal, p, s⟩ = '#' :: scan rest ⟨.incomment, '#', s⟩ := rfl

lemma scan_open (rest : List Char) (p : Char) (s : List Bool) :
    scan ('{' :: rest) ⟨.normal, p, s⟩ = '{' :: scan rest ⟨.normal, '{', false :: s⟩ := rfl

lemma scan_close (rest : List Char) (p : Char) (s : List Bool) :
    scan ('}' :: rest) ⟨.normal, p, s⟩
      = (if s.headD true then [] else (" __typename ").toList)
          ++ '}' :: scan rest ⟨.normal, '}', s.tail⟩ := rfl

lemma scan_other (c : Char) (rest : List Char) (p : Char) (s : List Bool)
    (h1 : ¬ c = '"') (h2 : ¬ c = '#') (h3 : ¬ c = '{') (h4 : ¬ c = '}') :
    scan (c :: rest) ⟨.normal, p, s⟩
      = c :: scan rest ⟨.normal, c, if detectTypename p c rest then markTop s else s⟩ := by
  simp only [scan]
  rw [if_neg h1, if_neg h2, if_neg h3, if_neg h4]

lemma scan_plain_step (c : Char) (rest : List Char) (p : Char) (s : List Bool)
    (h1 : ¬ c = '"') (h2 : ¬ c = '#') (h3 : ¬ c = '{') (h4 : ¬ c = '}')
    (h5 : detectTypename p c rest = false) :
    scan (c :: rest) ⟨.normal, p, s⟩ = c :: scan rest ⟨.normal, c, s⟩ := by
  rw [scan_other c rest p s h1 h2 h3 h4, h5]
  simp

lemma detect_ne_underscore (p c : Char) (rest : List Char) (h : ¬ c = '_') :
    detectTypename p c rest = false := by
  simp [detectTypename, h]

lemma detect_take_ne (p c : Char) (rest : List Char)
    (h : ¬ rest.take 9 = ("_typename").toList) :
    detectTypename p c rest = false := by
  have h9 : ¬ rest.take 9 = ['_', 't', 'y', 'p', 'e', 'n', 'a', 'm', 'e'] := by
    intro hx
    exact h (by rw [hx]; decide)
  simp [detectTypename, h9]

lemma pattern_chars : ("_typename").toList = ['_', 't', 'y', 'p', 'e', 'n', 'a', 'm', 'e'] := rfl

lemma take9_ne_pattern (a : Char) (l : List Char) (ha : ¬ a = '_') :
    ¬ (a :: l).take 9 = ("_typename").toList := by
  intro hx
  have hh := congrArg (fun t => t.headD ' ') hx
  simp at hh
  exact ha hh

/-- Scanning the nine characters `_typename` from `normal` mode copies them
verbatim and leaves the stack unchanged: the embedded word never re-triggers
the lookahead (the second underscore is followed by `typename`, which fails
the ten-character comparison), and none of its characters is special. -/
lemma scan_pattern (w : List Char) (p : Char) (s : List Bool) :
    scan (("_typename").toList ++ w) ⟨.normal, p, s⟩
      = ("_typename").toList ++ scan w ⟨.normal, 'e', s⟩ := by
  rw [pattern_chars]
  simp only [List.cons_append, List.nil_append]
  rw [scan_plain_step '_' _ _ _ (by decide) (by decide) (by decide) (by decide)
      (detect_take_ne _ _ _ (take9_ne_pattern 't' _ (by decide)))]
  rw [scan_plain_step 't' _ _ _ (by decide) (by decide) (by decide) (by decide)
      (detect_ne_underscore _ _ _ (by decide))]
  rw [scan_plain_step 'y' _ _ _ (by decide) (by decide) (by decide) (by decide)
      (detect_ne_underscore _ _ _ (by decide))]
  rw [scan_plain_step 'p' _ _ _ (by decide) (by decide) (by decide) (by decide)
      (detect_ne_underscore _ _ _ (by decide))]
  rw [scan_plain_step 'e' _ _ _ (by decide) (by decide) (by decide) (by decide)
      (detect_ne_underscore _ _ _ (by decide))]
  rw [scan_plain_step 'n' _ _ _ (by decide) (by decide) (by decide) (by decide)
      (detect_ne_underscore _ _ _ (by decide))]
  rw [scan_plain_step 'a' _ _ _ (by decide) (by decide) (by decide) (by decide)
      (detect_ne_underscore _ _ _ (by decide))]
  rw [scan_plain_step 'm' _ _ _ (by decide) (by decide) (by decide) (by decide)
      (detect_ne_underscore _ _ _ (by decide))]
  rw [scan_plain_step 'e' _ _ _ (by decide) (by decide) (by decide) (by decide)
      (detect_ne_underscore _ _ _ (by decide))]

/-- Rescanning the injected text: from `normal` mode with a non-empty stack,
the inserted ` __typename ` chunk followed by the closing brace is copied
verbatim; the embedded `__typename` marks the top of the stack, so the brace
that follows injects nothing and pops the stack. -/
lemma scan_chunk (R : List Char) (p : Char) (b : Bool) (t : List Bool) :
    scan ((" __typename ").toList ++ '}' :: R) ⟨.normal, p, b :: t⟩
      = (" __typename ").toList ++ '}' :: scan R ⟨.normal, '}', t⟩ := rfl

lemma stackLe_markTop {s t : List Bool} (h : StackLe s t) :
    StackLe (markTop s) (markTop t) := by
  cases h with
  | nil => exact List.Forall₂.nil
  | cons hab htl => exact List.Forall₂.cons (fun _ => rfl) htl

lemma stackLe_raise {s t : List Bool} (h : StackLe s t) : StackLe s (markTop t) := by
  cases h with
  | nil => exact List.Forall₂.nil
  | cons hab htl => exact List.Forall₂.cons (fun _ => rfl) htl

/-- The first character emitted by the scanner for a given input is either
the first input character or a space (the head of an injected chunk), so a
non-word boundary in the input stays a non-word boundary in the output. -/
lemma scan_head_nonword (w : List Char) (st : ScanSt)
    (h : isWordChar ((w[0]?).getD ' ') = false) :
    isWordChar (((scan w st)[0]?).getD ' ') = false := by
  match w with
  | [] => simpa using h
  | c :: r =>
    have hc : isWordChar c = false := by simpa using h
    rcases st with ⟨m, p, s⟩
    cases m with
    | instring => rw [scan_instring]; simpa using hc
    | inescape => rw [scan_inescape]; simpa using hc
    | incomment =>
      by_cases hnl : c = '\n'
      · subst hnl; rw [scan_incomment_nl]; simpa using hc
      · rw [scan_incomment _ _ _ _ hnl]; simpa using hc
    | normal =>
      by_cases hq : c = '"'
      · subst hq; rw [scan_quote]; simpa using hc
      · by_cases hh : c = '#'
        · subst hh; rw [scan_hash]; simpa using hc
        · by_cases ho : c = '{'
          · subst ho; rw [scan_open]; simpa using hc
          · by_cases hcl : c = '}'
            · subst hcl
              rw [scan_close]
              cases hs : s.headD true
              · simp [hs]; decide
              · simpa [hs] using hc
            · rw [scan_other c r p s hq hh ho hcl]; simpa using hc

lemma detect_spec (p c : Char) (rest : List Char) (h : detectTypename p c rest = true) :
    c = '_' ∧ rest.take 9 = ['_', 't', 'y', 'p', 'e', 'n', 'a', 'm', 'e']
      ∧ isWordChar p = false ∧ isWordChar ((rest[9]?).getD ' ') = false := by
  simp only [detectTypename, pattern_chars, Bool.and_eq_true, decide_eq_true_eq,
    Bool.not_eq_true'] at h
  exact ⟨h.1.1.1, h.1.1.2, h.1.2, h.2⟩

lemma detect_intro (p c : Char) (rest : List Char) (h1 : c = '_')
    (h2 : rest.take 9 = ['_', 't', 'y', 'p', 'e', 'n', 'a', 'm', 'e'])
    (h3 : isWordChar p = false) (h4 : isWordChar ((rest[9]?).getD ' ') = false) :
    detectTypename p c rest = true := by
  subst h1
  simp [detectTypename, pattern_chars, h2, h3, h4]

/-- Core idempotence lemma for the scanner: rescanning the output of a scan,
from a state with the same mode and previous character and a stack that
dominates the first scan's stack pointwise, reproduces that output
unchanged.  The second scan never injects: at every closing brace its stack
top is `true`, either inherited (`StackLe`) or set by the `__typename` word
the first scan injected right before the brace. -/
lemma scan_idem (q : List Char) :
    ∀ (m : ScanMode) (p : Char) (s t : List Bool), StackLe s t →
      scan (scan q ⟨m, p, s⟩) ⟨m, p, t⟩ = scan q ⟨m, p, s⟩ := by
  induction q with
  | nil => intro m p s t h; rfl
  | cons c rest ih =>
    intro m p s t hst
    cases m with
    | instring =>
      rw [scan_instring, scan_instring]
      exact congrArg (List.cons c) (ih _ c s t hst)
    | inescape =>
      rw [scan_inescape, scan_inescape]
      exact congrArg (List.cons c) (ih .instring c s t hst)
    | incomment =>
      by_cases hnl : c = '\n'
      · subst hnl
        rw [scan_incomment_nl, scan_incomment_nl]
        exact congrArg (List.cons '\n') (ih .normal '\n' s t hst)
      · rw [scan_incomment c rest p s hnl, scan_incomment c _ p t hnl]
        exact congrArg (List.cons c) (ih .incomment c s t hst)
    | normal =>
      by_cases hq : c = '"'
      · subst hq
        rw [scan_quote, scan_quote]
        exact congrArg (List.cons '"') (ih .instring '"' s t hst)
      by_cases hh : c = '#'
      · subst hh
        rw [scan_hash, scan_hash]
        exact congrArg (List.cons '#') (ih .incomment '#' s t hst)
      by_cases ho : c = '{'
      · subst ho
        rw [scan_open, scan_open]
        exact congrArg (List.cons '{')
          (ih .normal '{' (false :: s) (false :: t)
            (List.Forall₂.cons (fun hx => absurd hx Bool.false_ne_true) hst))
      by_cases hcl : c = '}'
      · subst hcl
        cases hst with
        | nil =>
          show '}' :: scan (scan rest ⟨.normal, '}', []⟩) ⟨.normal, '}', []⟩
              = '}' :: scan rest ⟨.normal, '}', []⟩
          exact congrArg (List.cons '}') (ih .normal '}' [] [] List.Forall₂.nil)
        | @cons a b s' t' hab htl =>
          by_cases ha : a = true
          · have hb : b = true := hab ha
            subst ha
            subst hb
            show '}' :: scan (scan rest ⟨.normal, '}', s'⟩) ⟨.normal, '}', t'⟩
                = '}' :: scan rest ⟨.normal, '}', s'⟩
            exact congrArg (List.cons '}') (ih .normal '}' s' t' htl)
          · have ha2 : a = false := Bool.eq_false_iff.mpr ha
            subst ha2
            show (" __typename ").toList
                  ++ '}' :: scan (scan rest ⟨.normal, '}', s'⟩) ⟨.normal, '}', t'⟩
                = (" __typename ").toList ++ '}' :: scan rest ⟨.normal, '}', s'⟩
            rw [ih .normal '}' s' t' htl]
      · -- plain character, possibly the start of a `__typename` word
        by_cases hd1 : detectTypename p c rest = true
        · obtain ⟨hceq, htk, hp, haf⟩ := detect_spec p c rest hd1
          subst hceq
          rw [scan_other '_' rest p s hq hh ho hcl, if_pos hd1]
          have hw : rest = ['_', 't', 'y', 'p', 'e', 'n', 'a', 'm', 'e'] ++ rest.drop 9 := by
            conv_lhs => rw [← List.take_append_drop 9 rest]
            rw [htk]
          have hscan : scan rest ⟨.normal, '_', markTop s⟩
              = ['_', 't', 'y', 'p', 'e', 'n', 'a', 'm', 'e']
                  ++ scan (rest.drop 9) ⟨.normal, 'e', markTop s⟩ := by
            conv_lhs => rw [hw, ← pattern_chars]
            rw [scan_pattern]
            rw [pattern_chars]
          have hafter : isWordChar (((rest.drop 9)[0]?).getD ' ') = false := by
            have h9 : rest[9]? = (rest.drop 9)[0]? := by
              conv_lhs => rw [hw]
              rw [List.getElem?_append_right (by simp)]
              simp
            rwa [h9] at haf
          have htake2 : (scan rest ⟨.normal, '_', markTop s⟩).take 9
              = ['_', 't', 'y', 'p', 'e', 'n', 'a', 'm', 'e'] := by
            rw [hscan]
            exact List.take_left' (by simp)
          have hafter2 :
              isWordChar (((scan rest ⟨.normal, '_', markTop s⟩)[9]?).getD ' ') = false := by
            rw [hscan]
            rw [List.getElem?_append_right (by simp)]
            simpa using scan_head_nonword (rest.drop 9) ⟨.normal, 'e', markTop s⟩ hafter
          have hd2 : detectTypename p '_' (scan rest ⟨.normal, '_', markTop s⟩) = true :=
            detect_intro p '_' _ rfl htake2 hp hafter2
          rw [scan_other '_' _ p t hq hh ho hcl, if_pos hd2]
          exact congrArg (List.cons '_')
            (ih .normal '_' (markTop s) (markTop t) (stackLe_markTop hst))
        · have hd1f : detectTypename p c rest = false := Bool.eq_false_iff.mpr hd1
          rw [scan_plain_step c rest p s hq hh ho hcl hd1f]
          by_cases hd2 : detectTypename p c (scan rest ⟨.normal, c, s⟩) = true
          · rw [scan_other c _ p t hq hh ho hcl, if_pos hd2]
            exact congrArg (List.cons c) (ih .normal c s (markTop t) (stackLe_raise hst))
          · have hd2f : detectTypename p c (scan rest ⟨.normal, c, s⟩) = false :=
              Bool.eq_false_iff.mpr hd2
            rw [scan_plain_step c _ p t hq hh ho hcl hd2f]
            exact congrArg (List.cons c) (ih .normal c s t hst)

/-- Idempotence of `injectTypename`, lifted from `scan_idem`. -/
lemma injectTypename_involutive (q : String) :
    injectTypename (injectTypename q) = injectTypename q := by
  have h : (String.mk (scan q.toList ⟨.normal, ' ', []⟩)).toList
      = scan q.toList ⟨.normal, ' ', []⟩ := rfl
  show String.mk (scan (String.mk (scan q.toList ⟨.normal, ' ', []⟩)).toList ⟨.normal, ' ', []⟩)
      = String.mk (scan q.toList ⟨.normal, ' ', []⟩)
  rw [h]
  exact congrArg String.mk (scan_idem q.toList .normal ' ' [] [] List.Forall₂.nil)

/-- C5 counterexample: the spec's example output has a single space between
the first closing brace and the second injected `__typename`, but the code
inserts the token ` __typename ` (with a leading space) after the space
already present in the input, producing two spaces there. -/
theorem C5_example_output_differs :
    ¬ injectTypename ("\x7b a \x7b b \x7d \x7d")
        = "\x7b a \x7b b  __typename \x7d __typename \x7d" := by decide

/-- C5 (amended): `injectTypename` is idempotent — for every input query
string, re-injecting its output returns the output unchanged — and the query
`{ a { b } }` becomes `{ a { b  __typename }  __typename }` (with two spaces
before each injected token); re-injecting that output changes nothing. -/
theorem C5_injectTypename_idempotent :
    (∀ q : String, injectTypename (injectTypename q) = injectTypename q)
      ∧ injectTypename ("\x7b a \x7b b \x7d \x7d")
          = "\x7b a \x7b b  __typename \x7d  __typename \x7d"
      ∧ injectTypename ("\x7b a \x7b b  __typename \x7d  __typename \x7d")
          = "\x7b a \x7b b  __typename \x7d  __typename \x7d" :=
  ⟨injectTypename_involutive, by decide, by decide⟩

lemma scan_string_body (v : List Char) :
    ∀ (esc : Bool) (w : List Char) (p : Char) (s : List Bool),
      strBodyOk esc v = true →
      scan (v ++ '"' :: w) ⟨if esc then .inescape else .instring, p, s⟩
        = v ++ '"' :: scan w ⟨.normal, '"', s⟩ := by
  induction v with
  | nil =>
    intro esc w p s h
    have hesc : esc = false := by
      cases esc
      · rfl
      · simpa [strBodyOk] using h
    subst hesc
    rfl
  | cons c r ihr =>
    intro esc w p s h
    cases esc with
    | true =>
      have h2 : strBodyOk false r = true := by simpa [strBodyOk] using h
      show scan (c :: (r ++ '"' :: w)) ⟨.inescape, p, s⟩ = _
      rw [scan_inescape]
      exact congrArg (List.cons c) (ihr false w c s h2)
    | false =>
      have hc : ¬ c = '"' := by
        intro hx
        rw [hx] at h
        simp [strBodyOk] at h
      have h2 : strBodyOk (decide (c = '\\')) r = true := by
        simpa [strBodyOk, hc] using h
      show scan (c :: (r ++ '"' :: w)) ⟨.instring, p, s⟩ = _
      rw [scan_instring]
      by_cases hb : c = '\\'
      · subst hb
        exact congrArg (List.cons '\\') (ihr true w '\\' s (by simpa using h2))
      · have hmode : (if c = '\\' then ScanMode.inescape
            else if c = '"' then ScanMode.normal else ScanMode.instring) = .instring := by
          rw [if_neg hb, if_neg hc]
        rw [hmode]
        exact congrArg (List.cons c) (ihr false w c s (by simpa [hb] using h2))

lemma scan_comment_body (v : List Char) :
    ∀ (w : List Char) (p : Char) (s : List Bool),
      (∀ c ∈ v, ¬ c = '\n') →
      scan (v ++ '\n' :: w) ⟨.incomment, p, s⟩ = v ++ '\n' :: scan w ⟨.normal, '\n', s⟩ := by
  induction v with
  | nil =>
    intro w p s h
    exact scan_incomment_nl w p s
  | cons c r ihr =>
    intro w p s h
    have hc : ¬ c = '\n' := h c (List.mem_cons_self _ _)
    show scan (c :: (r ++ '\n' :: w)) ⟨.incomment, p, s⟩ = _
    rw [scan_incomment _ _ _ _ hc]
    exact congrArg (List.cons c) (ihr w c s (fun x hx => h x (List.mem_cons_of_mem _ hx)))

/-- C6: a double-quoted string literal (with well-formed backslash escapes)
and a `#`-to-end-of-line comment are copied to the output verbatim — the
scanner injects nothing inside them — and the brace stack `s` reaching the
continuation is exactly the stack from before the region, so braces inside
the region do not change the tracked selection-set depth. -/
theorem C6_regions_copied_verbatim (u v w1 w2 : List Char) (p1 p2 : Char)
    (s1 s2 : List Bool) :
    (strBodyOk false u = true →
       scan ('"' :: u ++ '"' :: w1) ⟨.normal, p1, s1⟩
         = '"' :: u ++ '"' :: scan w1 ⟨.normal, '"', s1⟩)
    ∧ ((∀ c ∈ v, ¬ c = '\n') →
       scan ('#' :: v ++ '\n' :: w2) ⟨.normal, p2, s2⟩
         = '#' :: v ++ '\n' :: scan w2 ⟨.normal, '\n', s2⟩) := by
  constructor
  · intro h
    rw [List.cons_append, scan_quote]
    exact congrArg (List.cons '"') (scan_string_body u false w1 '"' s1 h)
  · intro h
    rw [List.cons_append, scan_hash]
    exact congrArg (List.cons '#') (scan_comment_body v w2 '#' s2 h)

/-- Witness for C6 at a concrete input: the string body `a{\"b` (containing a
brace and an escaped quote) and the comment body `{x` are copied verbatim
with the depth stack `[false]` unchanged. -/
theorem C6_regions_copied_verbatim_witness :
    (scan ('"' :: ['a', '\x7b', '\\', '"', 'b'] ++ '"' :: ['\x7d']) ⟨.normal, ' ', [false]⟩
        = '"' :: ['a', '\x7b', '\\', '"', 'b'] ++ '"' :: scan ['\x7d'] ⟨.normal, '"', [false]⟩)
    ∧ (scan ('#' :: ['\x7b', 'x'] ++ '\n' :: ['\x7d']) ⟨.normal, ' ', [false]⟩
        = '#' :: ['\x7b', 'x'] ++ '\n' :: scan ['\x7d'] ⟨.normal, '\n', [false]⟩) :=
  ⟨(C6_regions_copied_verbatim ['a', '\x7b', '\\', '"', 'b'] ['\x7b', 'x'] ['\x7d'] ['\x7d']
      ' ' ' ' [false] [false]).1 (by decide),
   (C6_regions_copied_verbatim ['a', '\x7b', '\\', '"', 'b'] ['\x7b', 'x'] ['\x7d'] ['\x7d']
      ' ' ' ' [false] [false]).2 (by decide)⟩

lemma mapGet_set_self {α : Type} (m : List (String × α)) (k : String) (v : α) :
    mapGet (mapSet m k v) k = some v := by
  induction m with
  | nil => simp [mapGet, mapSet]
  | cons e r ih =>
    by_cases h : e.1 = k
    · simp [mapSet, mapGet, h]
    · simp [mapSet, mapGet, h, ih]

lemma mapGet_set_ne {α : Type} (m : List (String × α)) (k k2 : String) (v : α)
    (h : ¬ k = k2) : mapGet (mapSet m k v) k2 = mapGet m k2 := by
  induction m with
  | nil => simp [mapGet, mapSet, h]
  | cons e r ih =>
    by_cases he : e.1 = k
    · simp [mapSet, mapGet, he, h]
    · simp [mapSet, mapGet, he, ih]

lemma mapGet_del_self {α : Type} (m : List (String × α)) (k : String) :
    mapGet (mapDel m k) k = none := by
  induction m with
  | nil => simp [mapGet, mapDel]
  | cons e r ih =>
    by_cases h : e.1 = k
    · simp [mapDel, mapGet, h, ih]
    · simp [mapDel, mapGet, h, ih]

lemma mapGet_del_ne {α : Type} (m : List (String × α)) (k k2 : String)
    (h : ¬ k = k2) : mapGet (mapDel m k) k2 = mapGet m k2 := by
  induction m with
  | nil => simp [mapGet, mapDel]
  | cons e r ih =>
    by_cases he : e.1 = k
    · simp [mapDel, mapGet, he, ih, h]
    · by_cases he2 : e.1 = k2
      · have hk2 : ¬ k2 = k := fun hx => h hx.symm
        simp [mapDel, mapGet, he, he2, hk2]
      · simp [mapDel, mapGet, he, he2, ih]

/-! ## Claim theorems -/

/-- C10: a UI-context message delivered while the lifecycle state is
anything other than CAPTURING is dropped entirely — the whole session state,
counters and timeline included, is returned unchanged. -/
theorem C10_addContext_dropped_outside_capturing (cd : ContextData) (nowMs : ℤ)
    (s : CaptureState) (h : ¬ s.state = .capturing) :
    addContext cd nowMs s = s := by
  simp [addContext, h]

theorem C10_addContext_dropped_outside_capturing_witness :
    ¬ initialState.state = .capturing
      ∧ addContext ⟨none, "click", none, none, none⟩ 5 initialState = initialState :=
  ⟨by decide,
   C10_addContext_dropped_outside_capturing ⟨none, "click", none, none, none⟩ 5 initialState
     (by decide)⟩

lemma findContextRefs_foldl (ctxs : List UIContext) (ts w : ℤ) (acc : List String) :
    ctxs.foldl
        (fun refs ctx =>
          if ctx.timestamp ≥ ts - w ∧ ctx.timestamp ≤ ts then refs ++ [ctx.id] else refs)
        acc
      = acc ++ (ctxs.filter
          (fun c => decide (ts - w ≤ c.timestamp ∧ c.timestamp ≤ ts))).map (fun c => c.id) := by
  induction ctxs generalizing acc with
  | nil => simp
  | cons c r ih =>
    by_cases hc : ts - w ≤ c.timestamp ∧ c.timestamp ≤ ts
    · have hge : c.timestamp ≥ ts - w ∧ c.timestamp ≤ ts := ⟨hc.1, hc.2⟩
      have hd : decide (ts - w ≤ c.timestamp ∧ c.timestamp ≤ ts) = true := decide_eq_true hc
      rw [List.foldl_cons, if_pos hge, ih, List.filter_cons, hd, if_pos rfl, List.map_cons]
      rw [List.append_assoc]
      rfl
    · have hge : ¬ (c.timestamp ≥ ts - w ∧ c.timestamp ≤ ts) := fun hx => hc ⟨hx.1, hx.2⟩
      have hd : decide (ts - w ≤ c.timestamp ∧ c.timestamp ≤ ts) = false := decide_eq_false hc
      rw [List.foldl_cons, if_neg hge, ih, List.filter_cons, hd, if_neg Bool.false_ne_true]

/-- C8: for non-negative `ts` and `w`, `findContextRefs` returns exactly the
ids of the stored contexts whose timestamp lies in `[ts − w, ts]`, both
bounds inclusive, in creation (storage) order; the window argument defaults
to 2000 ms; zero matches give the empty list (the filter of an empty or
fully-outside list is empty). -/
theorem C8_findContextRefs_window (ctxs : List UIContext) (ts w : ℤ)
    (h1 : 0 ≤ ts) (h2 : 0 ≤ w) :
    findContextRefs ctxs ts w
        = (ctxs.filter
            (fun c => decide (ts - w ≤ c.timestamp ∧ c.timestamp ≤ ts))).map (fun c => c.id)
      ∧ (∀ r, r ∈ findContextRefs ctxs ts w ↔
          ∃ c, c ∈ ctxs ∧ c.id = r ∧ ts - w ≤ c.timestamp ∧ c.timestamp ≤ ts)
      ∧ findContextRefs ctxs ts = findContextRefs ctxs ts 2000 := by
  have heq := findContextRefs_foldl ctxs ts w []
  refine ⟨by simpa [findContextRefs] using heq, ?_, rfl⟩
  intro r
  rw [show findContextRefs ctxs ts w
      = (ctxs.filter
          (fun c => decide (ts - w ≤ c.timestamp ∧ c.timestamp ≤ ts))).map (fun c => c.id)
    from by simpa [findContextRefs] using heq]
  simp only [List.mem_map, List.mem_filter, decide_eq_true_eq]
  constructor
  · rintro ⟨c, ⟨hc, hcond⟩, hid⟩
    exact ⟨c, hc, hid, hcond.1, hcond.2⟩
  · rintro ⟨c, hc, hid, hlo, hhi⟩
    exact ⟨c, ⟨hc, hlo, hhi⟩, hid⟩

/-- Witness for C8: a context at t = 1000 is inside the window of a lookup
at t = 2900 (window 2000) and outside the window of a lookup at t = 3001. -/
theorem C8_findContextRefs_window_witness :
    0 ≤ (2900 : ℤ) ∧ 0 ≤ (2000 : ℤ)
      ∧ findContextRefs [sampleContext] 2900 2000
          = ([sampleContext].filter
              (fun c => decide ((2900 : ℤ) - 2000 ≤ c.timestamp ∧ c.timestamp ≤ 2900))).map
              (fun c => c.id)
      ∧ findContextRefs [sampleContext] 2900 2000 = ["c_0001"]
      ∧ findContextRefs [sampleContext] 3001 2000 = [] :=
  ⟨by decide, by decide,
   (C8_findContextRefs_window [sampleContext] 2900 2000 (by decide) (by decide)).1,
   by decide, by decide⟩

/-- C7: a parsed POST body containing at least one qualifying persisted-query
item is fulfilled directly with exactly one `PersistedQueryNotFound` error
object per original item, preserving the batch shape: an array of n items
yields an array of n error objects, a single (non-array) item yields the
single error object. -/
theorem C7_persisted_query_rejection (items : List JVal) (item : JVal) :
    (items.any isPersistedQuery = true →
        ∃ errs : List JVal,
          fetchDecision (.arr items) = .fulfill (.arr errs)
            ∧ errs.length = items.length
            ∧ ∀ e ∈ errs, e = persistedQueryNotFoundError)
    ∧ ((∀ is2 : List JVal, ¬ item = .arr is2) → isPersistedQuery item = true →
        fetchDecision item = .fulfill persistedQueryNotFoundError) := by
  constructor
  · intro hany
    refine ⟨items.map (fun _ => persistedQueryNotFoundError), ?_, by simp, by simp⟩
    simp [fetchDecision, hany]
  · intro hnotarr hpq
    cases item with
    | arr is2 => exact absurd rfl (hnotarr is2)
    | null => simp [isPersistedQuery, jsTruthy] at hpq
    | bool b => simp [fetchDecision, hpq]
    | num q => simp [fetchDecision, hpq]
    | str s => simp [fetchDecision, hpq]
    | obj fields => simp [fetchDecision, hpq]

/-- Witness for C7: a batch of a persisted-query item and a plain query item
is fulfilled with exactly one error object per item; a single persisted-query
item is fulfilled with a single error object. -/
theorem C7_persisted_query_rejection_witness :
    ([samplePersisted, sampleQueryItem].any isPersistedQuery = true)
      ∧ (∃ errs : List JVal,
          fetchDecision (.arr [samplePersisted, sampleQueryItem]) = .fulfill (.arr errs)
            ∧ errs.length = [samplePersisted, sampleQueryItem].length
            ∧ ∀ e ∈ errs, e = persistedQueryNotFoundError)
      ∧ fetchDecision samplePersisted = .fulfill persistedQueryNotFoundError :=
  ⟨by rfl,
   (C7_persisted_query_rejection [samplePersisted, sampleQueryItem] samplePersisted).1 (by rfl),
   (C7_persisted_query_rejection [samplePersisted, sampleQueryItem] samplePersisted).2
     (fun is2 h => by cases h) (by rfl)⟩

lemma markDiff_some (e b : ℤ) : markDiff (some e) (some b) = e - b := rfl

lemma markDiff_none_left (b : Option ℤ) : markDiff none b = 0 := rfl

lemma markDiff_none_right (e : Option ℤ) : markDiff e none = 0 := by
  cases e <;> rfl

/-- C3 counterexample: marks with `dnsEnd < dnsStart` (both present) store a
negative `dns_ms`: the source's `|| 0` coalesces only `NaN` (and zero), not
negative differences, so the stored phase is `-2 < 0`, contradicting the
claimed non-negativity. -/
theorem C3_negative_phase_stored :
    ((mapGet (handleResponseReceived respSample 0
          (handleRequestWillBeSent rwsSample 0 initialState)).pendingRequests ("r1")).map
        (fun pend => pend.timing.map (fun t => t.dns_ms))) = some (some (-2))
      ∧ ((-2 : ℤ) < 0) := by
  constructor
  · decide
  · decide

/-- C3 (amended): the response-headers handler stores exactly
`computeTiming` of the event's marks, and every phase field is never `NaN`:
a difference involving a missing mark is stored as zero, but the difference
of two present marks is stored as-is — negative values are not clamped. -/
theorem C3_phase_computation (p : RespParams) (nowMs : ℤ) (s : CaptureState)
    (pend : PendingRequest) (h : mapGet s.pendingRequests p.requestId = some pend) :
    ((mapGet (handleResponseReceived p nowMs s).pendingRequests p.requestId).map
        (fun q => q.timing)) = some (some (computeTiming p.response.timing))
    ∧ (∀ m : TimingMarks,
        (∀ e b : ℤ, m.dnsEnd = some e → m.dnsStart = some b →
          (computeTiming (some m)).dns_ms = e - b)
        ∧ ((m.dnsEnd = none ∨ m.dnsStart = none) → (computeTiming (some m)).dns_ms = 0)
        ∧ (∀ e b : ℤ, m.connectEnd = some e → m.connectStart = some b →
          (computeTiming (some m)).connect_ms = e - b)
        ∧ ((m.connectEnd = none ∨ m.connectStart = none) →
            (computeTiming (some m)).connect_ms = 0)
        ∧ (∀ e b : ℤ, m.sslEnd = some e → m.sslStart = some b →
          (computeTiming (some m)).tls_ms = e - b)
        ∧ ((m.sslEnd = none ∨ m.sslStart = none) → (computeTiming (some m)).tls_ms = 0)
        ∧ (∀ e b : ℤ, m.sendEnd = some e → m.sendStart = some b →
          (computeTiming (some m)).send_ms = e - b)
        ∧ ((m.sendEnd = none ∨ m.sendStart = none) → (computeTiming (some m)).send_ms = 0)
        ∧ (∀ e b : ℤ, m.receiveHeadersEnd = some e → m.sendEnd = some b →
          (computeTiming (some m)).wait_ms = e - b)
        ∧ ((m.receiveHeadersEnd = none ∨ m.sendEnd = none) →
            (computeTiming (some m)).wait_ms = 0)) := by
  constructor
  · rcases hx : mapGet s.pendingExtraInfo p.requestId with _ | extra
    · simp [handleResponseReceived, h, hx, mapGet_set_self]
    · rcases hy : extra.responseHeaders with _ | hdrs
      · simp [handleResponseReceived, h, hx, hy, mapGet_set_self]
      · by_cases hz : extra.requestHeaders = none
        · simp [handleResponseReceived, h, hx, hy, hz, mapGet_set_self]
        · simp [handleResponseReceived, h, hx, hy, hz, mapGet_set_self]
  · intro m
    have h1 : (computeTiming (some m)).dns_ms = markDiff m.dnsEnd m.dnsStart := rfl
    have h2 : (computeTiming (some m)).connect_ms = markDiff m.connectEnd m.connectStart := rfl
    have h3 : (computeTiming (some m)).tls_ms = markDiff m.sslEnd m.sslStart := rfl
    have h4 : (computeTiming (some m)).send_ms = markDiff m.sendEnd m.sendStart := rfl
    have h5 : (computeTiming (some m)).wait_ms = markDiff m.receiveHeadersEnd m.sendEnd := rfl
    refine ⟨?_, ?_, ?_, ?_, ?_, ?_, ?_, ?_, ?_, ?_⟩
    · intro e b he hb; rw [h1, he, hb, markDiff_some]
    · rintro (hn | hn)
      · rw [h1, hn]; exact markDiff_none_left _
      · rw [h1, hn]; exact markDiff_none_right _
    · intro e b he hb; rw [h2, he, hb, markDiff_some]
    · rintro (hn | hn)
      · rw [h2, hn]; exact markDiff_none_left _
      · rw [h2, hn]; exact markDiff_none_right _
    · intro e b he hb; rw [h3, he, hb, markDiff_some]
    · rintro (hn | hn)
      · rw [h3, hn]; exact markDiff_none_left _
      · rw [h3, hn]; exact markDiff_none_right _
    · intro e b he hb; rw [h4, he, hb, markDiff_some]
    · rintro (hn | hn)
      · rw [h4, hn]; exact markDiff_none_left _
      · rw [h4, hn]; exact markDiff_none_right _
    · intro e b he hb; rw [h5, he, hb, markDiff_some]
    · rintro (hn | hn)
      · rw [h5, hn]; exact markDiff_none_left _
      · rw [h5, hn]; exact markDiff_none_right _

theorem C3_phase_computation_witness :
    ((mapGet (handleResponseReceived respSample 0
          (handleRequestWillBeSent rwsSample 0 initialState)).pendingRequests ("r1")).map
        (fun q => q.timing)) = some (some (computeTiming respSample.response.timing))
      ∧ (computeTiming (some c3Marks)).dns_ms = 1 - 3 :=
  ⟨(C3_phase_computation respSample 0 (handleRequestWillBeSent rwsSample 0 initialState)
      pendSample (by decide)).1,
   ((C3_phase_computation respSample 0 (handleRequestWillBeSent rwsSample 0 initialState)
      pendSample (by decide)).2 c3Marks).1 1 3 rfl rfl⟩

/-- C4 counterexample: when wire-level request headers were buffered before
the base event and loading-finished arrives with no recorded response, the
handler deletes only the PendingRequest entry (network.js lines 141-144) —
the PendingExtraInfo entry for the id survives, and no trace is produced. -/
theorem C4_extrainfo_not_cleared :
    ((mapGet (handleLoadingFinished ⟨"r1", 0⟩ none 0
          (handleRequestWillBeSentExtraInfo ⟨"r1", some [("cookie", "x")]⟩
            initialState)).pendingExtraInfo ("r1")).isSome = true)
      ∧ (handleLoadingFinished ⟨"r1", 0⟩ none 0
          (handleRequestWillBeSentExtraInfo ⟨"r1", some [("cookie", "x")]⟩
            initialState)).traces = [] := by
  constructor
  · decide
  · decide

/-- C4 (amended): loading-failed produces no trace and removes both the
PendingRequest and the PendingExtraInfo entries for its id; loading-finished
with no recorded response produces no trace and removes the PendingRequest
entry, but leaves the PendingExtraInfo buffer entirely untouched. -/
theorem C4_discard_behavior (s : CaptureState) (fp : FailParams) (fp2 : FinParams)
    (fetch : Option (String × Bool)) (nowMs : ℤ) :
    ((handleLoadingFailed fp s).traces = s.traces
      ∧ mapGet (handleLoadingFailed fp s).pendingRequests fp.requestId = none
      ∧ mapGet (handleLoadingFailed fp s).pendingExtraInfo fp.requestId = none)
    ∧ ((∀ pend, mapGet s.pendingRequests fp2.requestId = some pend → pend.response = none) →
        (handleLoadingFinished fp2 fetch nowMs s).traces = s.traces
          ∧ mapGet (handleLoadingFinished fp2 fetch nowMs s).pendingRequests fp2.requestId = none
          ∧ (handleLoadingFinished fp2 fetch nowMs s).pendingExtraInfo = s.pendingExtraInfo) := by
  constructor
  · exact ⟨rfl, mapGet_del_self _ _, mapGet_del_self _ _⟩
  · intro hp
    rcases hq : mapGet s.pendingRequests fp2.requestId with _ | pend
    · refine ⟨?_, ?_, ?_⟩ <;> simp [handleLoadingFinished, hq, mapGet_del_self]
    · have hr : pend.response = none := hp pend hq
      refine ⟨?_, ?_, ?_⟩ <;> simp [handleLoadingFinished, hq, hr, mapGet_del_self]

theorem C4_discard_behavior_witness :
    ((handleLoadingFailed ⟨"r1"⟩ (handleRequestWillBeSent rwsSample 0 initialState)).traces
        = (handleRequestWillBeSent rwsSample 0 initialState).traces
      ∧ mapGet (handleLoadingFailed ⟨"r1"⟩
          (handleRequestWillBeSent rwsSample 0 initialState)).pendingRequests ("r1") = none
      ∧ mapGet (handleLoadingFailed ⟨"r1"⟩
          (handleRequestWillBeSent rwsSample 0 initialState)).pendingExtraInfo ("r1") = none)
    ∧ ((handleLoadingFinished ⟨"r1", 0⟩ none 0
          (handleRequestWillBeSent rwsSample 0 initialState)).traces
        = (handleRequestWillBeSent rwsSample 0 initialState).traces
      ∧ mapGet (handleLoadingFinished ⟨"r1", 0⟩ none 0
          (handleRequestWillBeSent rwsSample 0 initialState)).pendingRequests ("r1") = none
      ∧ (handleLoadingFinished ⟨"r1", 0⟩ none 0
          (handleRequestWillBeSent rwsSample 0 initialState)).pendingExtraInfo
        = (handleRequestWillBeSent rwsSample 0 initialState).pendingExtraInfo) :=
  ⟨(C4_discard_behavior (handleRequestWillBeSent rwsSample 0 initialState)
      ⟨"r1"⟩ ⟨"r1", 0⟩ none 0).1,
   (C4_discard_behavior (handleRequestWillBeSent rwsSample 0 initialState)
      ⟨"r1"⟩ ⟨"r1", 0⟩ none 0).2
     (fun pend hp => by
       have hmap : mapGet (handleRequestWillBeSent rwsSample 0 initialState).pendingRequests
           ("r1") = some pendSample := by decide
       rw [hmap] at hp
       cases hp
       rfl)⟩

/-- Finalization lemma: when a pending request with a recorded response
passes both filters, loading-finished appends exactly one trace, carrying
the pending entry's headers; and if timing and response timestamp were
recorded, the trace's `total_ms` is the sum of its six phase fields. -/
lemma fin_trace (s : CaptureState) (rid : String) (ts3 nowMs : ℤ)
    (fetch : Option (String × Bool)) (pend : PendingRequest) (resp : RespData)
    (hp : mapGet s.pendingRequests rid = some pend)
    (hresp : pend.response = some resp)
    (hstatic : isStaticAsset pend.request.url = false)
    (hmime : isSkippableContentType resp.mimeType = false) :
    ∃ t : Trace,
      (handleLoadingFinished ⟨rid, ts3⟩ fetch nowMs s).traces = s.traces ++ [t]
        ∧ t.request.headers = pend.request.headers
        ∧ t.response.headers = resp.headers
        ∧ (∀ tmg rts, pend.timing = some tmg → pend.responseTimestamp = some rts →
            t.timing.total_ms = t.timing.dns_ms + t.timing.connect_ms + t.timing.tls_ms
              + t.timing.send_ms + t.timing.wait_ms + t.timing.receive_ms) := by
  simp only [handleLoadingFinished, hp, hresp, hstatic, hmime, Bool.false_eq_true, if_false]
  refine ⟨_, rfl, rfl, rfl, ?_⟩
  intro tmg rts htm hrts
  simp [htm, hrts]

/-- C2 counterexample: an id-matched sequence request-start →
response-headers → loading-finished whose response content type is
`text/css` is discarded by the content-type filter: no trace is appended,
refuting the claim that every such sequence yields exactly one trace. -/
theorem C2_filtered_sequence_no_trace :
    (handleLoadingFinished ⟨"r1", 0⟩ none 0 (handleResponseReceived c2Resp 0
        (handleRequestWillBeSent rwsSample 0 initialState))).traces = [] := by
  decide

/-- Request-start lemma: when the event is not skipped, a pending entry for
the id exists afterwards, with the event's URL, no response yet, and the
trace list unchanged. -/
lemma rws_pend (rq : RwsParams) (nowMs : ℤ) (s0 : CaptureState)
    (hty : ¬ rq.type = some ("WebSocket"))
    (hurl : strStartsWith rq.request.url ("chrome-extension://") = false) :
    ((mapGet (handleRequestWillBeSent rq nowMs s0).pendingRequests rq.requestId).map
        (fun pend => (pend.request.url, pend.response, pend.timing)))
      = some (rq.request.url, (none : Option RespData), (none : Option Timing))
    ∧ (handleRequestWillBeSent rq nowMs s0).traces = s0.traces := by
  rcases hx : mapGet s0.pendingExtraInfo rq.requestId with _ | extra
  · constructor <;> simp [handleRequestWillBeSent, hty, hurl, hx, mapGet_set_self]
  · rcases hy : extra.requestHeaders with _ | hdrs
    · constructor <;> simp [handleRequestWillBeSent, hty, hurl, hx, hy, mapGet_set_self]
    · by_cases hz : extra.responseHeaders = none
      · constructor <;> simp [handleRequestWillBeSent, hty, hurl, hx, hy, hz, mapGet_set_self]
      · constructor <;> simp [handleRequestWillBeSent, hty, hurl, hx, hy, hz, mapGet_set_self]

/-- Response-headers lemma: with a pending entry present, the handler
records a response carrying the event's MIME type, the computed timing and
the response timestamp, leaving the request sub-record and the trace list
unchanged. -/
lemma resp_pend (rp : RespParams) (nowMs : ℤ) (s : CaptureState) (pend : PendingRequest)
    (hp : mapGet s.pendingRequests rp.requestId = some pend) :
    ((mapGet (handleResponseReceived rp nowMs s).pendingRequests rp.requestId).map
        (fun p2 => (p2.request, p2.response.map (fun r => r.mimeType), p2.response.isSome,
          p2.timing, p2.responseTimestamp)))
      = some (pend.request, some rp.response.mimeType, true,
          some (computeTiming rp.response.timing),
          some (toEpochMs s.timeOffset nowMs rp.timestamp))
    ∧ (handleResponseReceived rp nowMs s).traces = s.traces := by
  rcases hx : mapGet s.pendingExtraInfo rp.requestId with _ | extra
  · constructor <;> simp [handleResponseReceived, hp, hx, mapGet_set_self]
  · rcases hy : extra.responseHeaders with _ | hdrs
    · constructor <;> simp [handleResponseReceived, hp, hx, hy, mapGet_set_self]
    · by_cases hz : extra.requestHeaders = none
      · constructor <;> simp [handleResponseReceived, hp, hx, hy, hz, mapGet_set_self]
      · constructor <;> simp [handleResponseReceived, hp, hx, hy, hz, mapGet_set_self]

/-- C2 (amended): an id-matched sequence request-start → response-headers →
loading-finished appends exactly one trace, and that trace's
`timing.total_ms` equals the sum of its six phase fields, provided the
request-start event is not skipped (not a WebSocket upgrade, not an
extension-internal URL) and the request passes the static-asset and
content-type filters. -/
theorem C2_single_trace_total_sum
    (rid : String) (rawReq : RawRequest) (rawResp : RawResponse)
    (ts1 ts2 ts3 : ℤ) (wall : Option ℤ) (ini : Option InitiatorParams) (rtype : Option String)
    (fetch : Option (String × Bool)) (n1 n2 n3 : ℤ) (s0 : CaptureState)
    (hty : ¬ rtype = some ("WebSocket"))
    (hurl : strStartsWith rawReq.url ("chrome-extension://") = false)
    (hstatic : isStaticAsset rawReq.url = false)
    (hmime : isSkippableContentType rawResp.mimeType = false) :
    ∃ t : Trace,
      (handleLoadingFinished ⟨rid, ts3⟩ fetch n3
          (handleResponseReceived ⟨rid, rawResp, ts2⟩ n2
            (handleRequestWillBeSent ⟨rid, rawReq, ts1, wall, ini, rtype⟩ n1 s0))).traces
        = s0.traces ++ [t]
      ∧ t.timing.total_ms = t.timing.dns_ms + t.timing.connect_ms + t.timing.tls_ms
          + t.timing.send_ms + t.timing.wait_ms + t.timing.receive_ms := by
  obtain ⟨hA, hAtr⟩ := rws_pend ⟨rid, rawReq, ts1, wall, ini, rtype⟩ n1 s0 hty hurl
  obtain ⟨pendA, hAget, hAprops⟩ := Option.map_eq_some'.mp hA
  obtain ⟨hAurl, hAresp, hAtm⟩ : pendA.request.url = rawReq.url ∧ pendA.response = none
      ∧ pendA.timing = none := by
    have := hAprops
    simp only [Prod.mk.injEq] at this
    exact ⟨this.1, this.2.1, this.2.2⟩
  obtain ⟨hB, hBtr⟩ := resp_pend ⟨rid, rawResp, ts2⟩ n2 _ pendA hAget
  obtain ⟨pendB, hBget, hBprops⟩ := Option.map_eq_some'.mp hB
  obtain ⟨hBreq, hBmimemap, hBsome, hBtm, hBrts⟩ : pendB.request = pendA.request
      ∧ pendB.response.map (fun r => r.mimeType) = some rawResp.mimeType
      ∧ pendB.response.isSome = true
      ∧ pendB.timing = some (computeTiming rawResp.timing)
      ∧ pendB.responseTimestamp
          = some (toEpochMs (handleRequestWillBeSent ⟨rid, rawReq, ts1, wall, ini, rtype⟩
              n1 s0).timeOffset n2 ts2) := by
    have := hBprops
    simp only [Prod.mk.injEq] at this
    exact ⟨this.1, this.2.1, this.2.2.1, this.2.2.2.1, this.2.2.2.2⟩
  obtain ⟨respB, hBresp⟩ := Option.isSome_iff_exists.mp hBsome
  have hBmime : respB.mimeType = rawResp.mimeType := by
    rw [hBresp] at hBmimemap
    simpa using hBmimemap
  obtain ⟨t, ht, hth1, hth2, htot⟩ :=
    fin_trace _ rid ts3 n3 fetch pendB respB hBget hBresp
      (by rw [hBreq, hAurl]; exact hstatic)
      (by rw [hBmime]; exact hmime)
  refine ⟨t, ?_, ?_⟩
  · rw [ht, hBtr, hAtr]
  · exact htot _ _ hBtm hBrts

/-- Witness for C2 at a concrete sequence with a JSON response. -/
theorem C2_single_trace_total_sum_witness :
    ∃ t : Trace,
      (handleLoadingFinished ⟨"r1", 0⟩ none 0
          (handleResponseReceived ⟨"r1", ⟨200, none, none, some ("application/json"),
              some c3Marks⟩, 0⟩ 0
            (handleRequestWillBeSent ⟨"r1", ⟨"GET", "https://api.example.com/data", none, none⟩,
              0, none, none, none⟩ 0 initialState))).traces
        = initialState.traces ++ [t]
      ∧ t.timing.total_ms = t.timing.dns_ms + t.timing.connect_ms + t.timing.tls_ms
          + t.timing.send_ms + t.timing.wait_ms + t.timing.receive_ms :=
  C2_single_trace_total_sum "r1" ⟨"GET", "https://api.example.com/data", none, none⟩
    ⟨200, none, none, some ("application/json"), some c3Marks⟩ 0 0 0 none none none
    none 0 0 0 initialState (by decide) (by decide) (by decide) (by decide)

lemma mapGet_mem {α : Type} (m : List (String × α)) (k : String) (v : α) :
    mapGet m k = some v → (k, v) ∈ m := by
  induction m with
  | nil => intro h; simp [mapGet] at h
  | cons e r ih =>
    intro h
    rcases e with ⟨a, b⟩
    by_cases he : a = k
    · subst he
      simp [mapGet] at h
      subst h
      exact List.mem_cons_self _ _
    · simp [mapGet, he] at h
      exact List.mem_cons_of_mem _ (ih h)

lemma mem_mapSet {α : Type} (m : List (String × α)) (k : String) (v : α) (x : String × α) :
    (m.map (fun e => e.1)).Nodup → x ∈ mapSet m k v →
      x = (k, v) ∨ (x ∈ m ∧ ¬ x.1 = k) := by
  induction m with
  | nil =>
    intro hnd hx
    simp [mapSet] at hx
    exact Or.inl hx
  | cons e r ih =>
    intro hnd hx
    rcases e with ⟨a, b⟩
    simp only [List.map_cons, List.nodup_cons] at hnd
    by_cases he : a = k
    · subst he
      rw [show mapSet ((a, b) :: r) a v = (a, v) :: r from by simp [mapSet],
        List.mem_cons] at hx
      rcases hx with hx | hx
      · exact Or.inl hx
      · refine Or.inr ⟨List.mem_cons_of_mem _ hx, fun hk => ?_⟩
        exact hnd.1 (hk ▸ List.mem_map_of_mem (fun e => e.1) hx)
    · rw [show mapSet ((a, b) :: r) k v = (a, b) :: mapSet r k v from by simp [mapSet, he],
        List.mem_cons] at hx
      rcases hx with hx | hx
      · refine Or.inr ⟨by simp [hx], ?_⟩
        rw [hx]
        exact he
      · rcases ih hnd.2 hx with h1 | ⟨h2, h3⟩
        · exact Or.inl h1
        · exact Or.inr ⟨List.mem_cons_of_mem _ h2, h3⟩

lemma mapSet_map_eq {α β : Type} (m : List (String × α)) (k : String) (v w : α)
    (g : String × α → β) (hg : g (k, v) = g (k, w)) :
    mapGet m k = some w → (mapSet m k v).map g = m.map g := by
  induction m with
  | nil => intro hget; simp [mapGet] at hget
  | cons e r ih =>
    intro hget
    rcases e with ⟨a, b⟩
    by_cases he : a = k
    · subst he
      simp [mapGet] at hget
      subst hget
      simp [mapSet, hg]
    · simp [mapGet, he] at hget
      simp [mapSet, he, ih hget]

lemma mkWsMessage_id (direction : String) (p : WsFrameParams) (nowMs : ℤ)
    (s : CaptureState) (wsId : String) (n : ℕ) :
    (mkWsMessage direction p nowMs s wsId (some n)).id = msgIdFmt wsId n := rfl

lemma addWsFrame_inv (dir : String) (p : WsFrameParams) (nowMs : ℤ) (s : CaptureState)
    (h : WsInv s) : WsInv (addWsFrame dir p nowMs s) := by
  obtain ⟨hkeys, hids, hall⟩ := h
  rcases hc : mapGet s.wsConnections p.requestId with _ | conn
  · simp only [addWsFrame, hc]
    exact ⟨hkeys, hids, hall⟩
  · have hmem : (p.requestId, conn) ∈ s.wsConnections := mapGet_mem _ _ _ hc
    obtain ⟨hcnt, hctr, hmsgs⟩ := hall _ hmem
    have hcnt2 : conn.message_count = conn.messages.length := hcnt
    have hctr2 : mapGet s.wsMessageCounters conn.id = some (some conn.message_count) := hctr
    have hmsgs2 : conn.messages.map (fun msg => msg.id)
        = (List.range conn.message_count).map (fun k => msgIdFmt conn.id (k + 1)) := hmsgs
    have hproj1 : (addWsFrame dir p nowMs s).wsConnections
        = mapSet s.wsConnections p.requestId
            (bumpConn conn (mkWsMessage dir p nowMs s conn.id
              (some (conn.message_count + 1)))) := by
      simp only [addWsFrame, hc, hctr2]
      rfl
    have hproj2 : (addWsFrame dir p nowMs s).wsMessageCounters
        = mapSet s.wsMessageCounters conn.id (some (conn.message_count + 1)) := by
      simp only [addWsFrame, hc, hctr2]
      rfl
    refine ⟨?_, ?_, ?_⟩
    · rw [hproj1, mapSet_map_eq s.wsConnections p.requestId
        (bumpConn conn (mkWsMessage dir p nowMs s conn.id (some (conn.message_count + 1))))
        conn (fun e => e.1) rfl hc]
      exact hkeys
    · rw [hproj1, mapSet_map_eq s.wsConnections p.requestId
        (bumpConn conn (mkWsMessage dir p nowMs s conn.id (some (conn.message_count + 1))))
        conn (fun e => e.2.id) rfl hc]
      exact hids
    · intro x hx
      rw [hproj1] at hx
      rw [hproj2]
      rcases mem_mapSet _ _ _ _ hkeys hx with hxn | ⟨hxo, hxk⟩
      · subst hxn
        refine ⟨?_, ?_, ?_⟩
        · simp [bumpConn, hcnt2]
        · rw [show (p.requestId, bumpConn conn (mkWsMessage dir p nowMs s conn.id
              (some (conn.message_count + 1)))).2.id = conn.id from rfl]
          rw [mapGet_set_self]
          rfl
        · show (bumpConn conn (mkWsMessage dir p nowMs s conn.id
              (some (conn.message_count + 1)))).messages.map (fun msg => msg.id)
            = (List.range (bumpConn conn (mkWsMessage dir p nowMs s conn.id
                (some (conn.message_count + 1)))).message_count).map
                (fun k => msgIdFmt conn.id (k + 1))
          rw [show (bumpConn conn (mkWsMessage dir p nowMs s conn.id
              (some (conn.message_count + 1)))).messages
            = conn.messages ++ [mkWsMessage dir p nowMs s conn.id
                (some (conn.message_count + 1))] from rfl]
          rw [show (bumpConn conn (mkWsMessage dir p nowMs s conn.id
              (some (conn.message_count + 1)))).message_count
            = conn.message_count + 1 from rfl]
          rw [List.map_append, hmsgs2, List.range_succ, List.map_append]
          rw [show ([mkWsMessage dir p nowMs s conn.id
              (some (conn.message_count + 1))].map (fun msg => msg.id))
            = [msgIdFmt conn.id (conn.message_count + 1)] from rfl]
          rfl
      · have hxid : ¬ x.2.id = conn.id := by
          intro hid
          have hxeq : x = (p.requestId, conn) :=
            List.inj_on_of_nodup_map hids hxo hmem hid
          rw [hxeq] at hxk
          exact hxk rfl
        obtain ⟨h1, h2, h3⟩ := hall x hxo
        exact ⟨h1, by rw [mapGet_set_ne _ _ _ _ (fun hh => hxid hh.symm)]; exact h2, h3⟩

/-- C9: processing a frame-sent or frame-received event preserves the
WebSocket invariant: afterwards every connection still satisfies
`message_count = messages.length` and its messages carry the scoped ids
with strictly increasing sequence numbers `1 … message_count` in
processing order. -/
theorem C9_ws_message_invariant (p : WsFrameParams) (nowMs : ℤ) (s : CaptureState)
    (h : WsInv s) :
    WsInv (handleWebSocketFrameSent p nowMs s)
      ∧ WsInv (handleWebSocketFrameReceived p nowMs s) :=
  ⟨addWsFrame_inv ("send") p nowMs s h, addWsFrame_inv ("receive") p nowMs s h⟩

/-- Witness for C9 at a concrete state: a freshly created connection, one
sent frame and one received frame. -/
theorem C9_ws_message_invariant_witness :
    WsInv (handleWebSocketFrameSent ⟨"w1", 0, 1, some ("hi")⟩ 0
        (handleWebSocketCreated ⟨"w1", "wss://x.example/ws"⟩ 0 initialState))
      ∧ WsInv (handleWebSocketFrameReceived ⟨"w1", 0, 1, some ("hi")⟩ 0
        (handleWebSocketCreated ⟨"w1", "wss://x.example/ws"⟩ 0 initialState)) :=
  C9_ws_message_invariant ⟨"w1", 0, 1, some ("hi")⟩ 0
    (handleWebSocketCreated ⟨"w1", "wss://x.example/ws"⟩ 0 initialState) (by decide)

/-- C1: for every request id and every arrival order of the wire-level
header events relative to their base events (per direction), the finalized
trace's headers are the wire-level values when a wire-level event was
observed, and the base-event values otherwise.  The five conjuncts are: both
wire events after their base events; wire request headers first; wire
response headers between the base events; both wire events before their base
events; and no wire events at all. -/
theorem C1_wire_header_reconciliation
    (rid : String) (rawReq : RawRequest) (rawResp : RawResponse)
    (wireReqH wireRespH : Option (List (String × String)))
    (ts1 ts2 ts3 : ℤ) (wall : Option ℤ) (ini : Option InitiatorParams) (rtype : Option String)
    (fetch : Option (String × Bool)) (n1 n2 n3 : ℤ) (s0 : CaptureState)
    (hty : ¬ rtype = some ("WebSocket"))
    (hurl : strStartsWith rawReq.url ("chrome-extension://") = false)
    (hbuf : mapGet s0.pendingExtraInfo rid = none)
    (hpr : mapGet s0.pendingRequests rid = none)
    (hstatic : isStaticAsset rawReq.url = false)
    (hmime : isSkippableContentType rawResp.mimeType = false) :
    (∃ t : Trace,
      (handleLoadingFinished ⟨rid, ts3⟩ fetch n3
          (handleResponseReceivedExtraInfo ⟨rid, wireRespH⟩
            (handleResponseReceived ⟨rid, rawResp, ts2⟩ n2
              (handleRequestWillBeSentExtraInfo ⟨rid, wireReqH⟩
                (handleRequestWillBeSent ⟨rid, rawReq, ts1, wall, ini, rtype⟩ n1 s0))))).traces
        = s0.traces ++ [t]
      ∧ t.request.headers = normalizeHeaders wireReqH
      ∧ t.response.headers = normalizeHeaders wireRespH)
    ∧ (∃ t : Trace,
      (handleLoadingFinished ⟨rid, ts3⟩ fetch n3
          (handleResponseReceivedExtraInfo ⟨rid, wireRespH⟩
            (handleResponseReceived ⟨rid, rawResp, ts2⟩ n2
              (handleRequestWillBeSent ⟨rid, rawReq, ts1, wall, ini, rtype⟩ n1
                (handleRequestWillBeSentExtraInfo ⟨rid, wireReqH⟩ s0))))).traces
        = s0.traces ++ [t]
      ∧ t.request.headers = normalizeHeaders wireReqH
      ∧ t.response.headers = normalizeHeaders wireRespH)
    ∧ (∃ t : Trace,
      (handleLoadingFinished ⟨rid, ts3⟩ fetch n3
          (handleResponseReceived ⟨rid, rawResp, ts2⟩ n2
            (handleResponseReceivedExtraInfo ⟨rid, wireRespH⟩
              (handleRequestWillBeSentExtraInfo ⟨rid, wireReqH⟩
                (handleRequestWillBeSent ⟨rid, rawReq, ts1, wall, ini, rtype⟩ n1 s0))))).traces
        = s0.traces ++ [t]
      ∧ t.request.headers = normalizeHeaders wireReqH
      ∧ t.response.headers = normalizeHeaders wireRespH)
    ∧ (∃ t : Trace,
      (handleLoadingFinished ⟨rid, ts3⟩ fetch n3
          (handleResponseReceived ⟨rid, rawResp, ts2⟩ n2
            (handleRequestWillBeSent ⟨rid, rawReq, ts1, wall, ini, rtype⟩ n1
              (handleResponseReceivedExtraInfo ⟨rid, wireRespH⟩
                (handleRequestWillBeSentExtraInfo ⟨rid, wireReqH⟩ s0))))).traces
        = s0.traces ++ [t]
      ∧ t.request.headers = normalizeHeaders wireReqH
      ∧ t.response.headers = normalizeHeaders wireRespH)
    ∧ (∃ t : Trace,
      (handleLoadingFinished ⟨rid, ts3⟩ fetch n3
          (handleResponseReceived ⟨rid, rawResp, ts2⟩ n2
            (handleRequestWillBeSent ⟨rid, rawReq, ts1, wall, ini, rtype⟩ n1 s0))).traces
        = s0.traces ++ [t]
      ∧ t.request.headers = normalizeHeaders rawReq.headers
      ∧ t.response.headers = normalizeHeaders rawResp.headers) := by
  refine ⟨?_, ?_, ?_, ?_, ?_⟩
  · simp [handleRequestWillBeSent, handleRequestWillBeSentExtraInfo, handleResponseReceived,
      handleResponseReceivedExtraInfo, handleLoadingFinished, hty, hurl, hbuf, hpr,
      hstatic, hmime, mapGet_set_self, mapGet_del_self]
  · simp [handleRequestWillBeSent, handleRequestWillBeSentExtraInfo, handleResponseReceived,
      handleResponseReceivedExtraInfo, handleLoadingFinished, hty, hurl, hbuf, hpr,
      hstatic, hmime, mapGet_set_self, mapGet_del_self]
  · simp [handleRequestWillBeSent, handleRequestWillBeSentExtraInfo, handleResponseReceived,
      handleResponseReceivedExtraInfo, handleLoadingFinished, hty, hurl, hbuf, hpr,
      hstatic, hmime, mapGet_set_self, mapGet_del_self]
  · simp [handleRequestWillBeSent, handleRequestWillBeSentExtraInfo, handleResponseReceived,
      handleResponseReceivedExtraInfo, handleLoadingFinished, hty, hurl, hbuf, hpr,
      hstatic, hmime, mapGet_set_self, mapGet_del_self]
  · simp [handleRequestWillBeSent, handleRequestWillBeSentExtraInfo, handleResponseReceived,
      handleResponseReceivedExtraInfo, handleLoadingFinished, hty, hurl, hbuf, hpr,
      hstatic, hmime, mapGet_set_self, mapGet_del_self]

/-- Witness for C1 at concrete inputs: the first arrival order (wire events
after base events) yields the wire headers; the no-wire-event run yields the
base headers. -/
theorem C1_wire_header_reconciliation_witness :
    (∃ t : Trace,
      (handleLoadingFinished ⟨"r1", 9⟩ none 9
          (handleResponseReceivedExtraInfo ⟨"r1", some [("set-cookie", "y")]⟩
            (handleResponseReceived ⟨"r1", ⟨200, none, some [("b", "2")],
                some ("application/json"), none⟩, 5⟩ 5
              (handleRequestWillBeSentExtraInfo ⟨"r1", some [("cookie", "x")]⟩
                (handleRequestWillBeSent ⟨"r1", ⟨"GET", "https://api.example.com/data",
                  some [("a", "1")], none⟩, 1, none, none, none⟩ 1 initialState))))).traces
        = initialState.traces ++ [t]
      ∧ t.request.headers = normalizeHeaders (some [("cookie", "x")])
      ∧ t.response.headers = normalizeHeaders (some [("set-cookie", "y")]))
    ∧ (∃ t : Trace,
      (handleLoadingFinished ⟨"r1", 9⟩ none 9
          (handleResponseReceived ⟨"r1", ⟨200, none, some [("b", "2")],
              some ("application/json"), none⟩, 5⟩ 5
            (handleRequestWillBeSent ⟨"r1", ⟨"GET", "https://api.example.com/data",
              some [("a", "1")], none⟩, 1, none, none, none⟩ 1 initialState))).traces
        = initialState.traces ++ [t]
      ∧ t.request.headers = normalizeHeaders (some [("a", "1")])
      ∧ t.response.headers = normalizeHeaders (some [("b", "2")])) :=
  ⟨(C1_wire_header_reconciliation "r1"
      ⟨"GET", "https://api.example.com/data", some [("a", "1")], none⟩
      ⟨200, none, some [("b", "2")], some ("application/json"), none⟩
      (some [("cookie", "x")]) (some [("set-cookie", "y")]) 1 5 9 none none none
      none 1 5 9 initialState (by decide) (by decide) (by decide) (by decide)
      (by decide) (by decide)).1,
   (C1_wire_header_reconciliation "r1"
      ⟨"GET", "https://api.example.com/data", some [("a", "1")], none⟩
      ⟨200, none, some [("b", "2")], some ("application/json"), none⟩
      (some [("cookie", "x")]) (some [("set-cookie", "y")]) 1 5 9 none none none
      none 1 5 9 initialState (by decide) (by decide) (by decide) (by decide)
      (by decide) (by decide)).2.2.2.2⟩
